import Mathlib

/-!
# WM8950 / WM8956 codec drivers: register cache, wire frame, PLL, format, dividers, bias

A shallow embedding of `sound/soc/codecs/wm8950.c` and `sound/soc/codecs/wm8956.c`.

* C `unsigned int` values are `Nat`s reduced `% 2 ^ 32` where the source can overflow,
  `u16` values are reduced `% 65536`, `u8` values `% 256`.
* The register numbers and the cache size come from `wm8950.h` / `wm8956.h`; they are
  carried by the records `wm8950_h` and `wm8956_h` and every function takes the header
  as its first argument.
* The bus transport `codec->hw_write` is a function of the frames handed to it so far and
  of the frame it is handed now; the frames are logged in the codec state.
* A division by zero is a fault: the functions that can divide return an `Option`.
* The constants of the sound core headers (`SND_SOC_DAIFMT_*`, `SNDRV_PCM_*`) are carried
  by the record `sound_h`; a C `switch` is the chain of its cases in source order.
-/

namespace Wm89xx

/-! ## Shared kernel types -/

/-- Errno value of an I/O error. -/
def EIO : Int := 5

/-- Errno value of an invalid argument. -/
def EINVAL : Int := 22

/-- The bias levels of `enum snd_soc_bias_level`. -/
inductive snd_soc_bias_level where
  | SND_SOC_BIAS_ON
  | SND_SOC_BIAS_PREPARE
  | SND_SOC_BIAS_STANDBY
  | SND_SOC_BIAS_OFF
deriving DecidableEq, Repr

/-- A two-byte control frame `data[0], data[1]`. -/
abbrev frame_t := Nat × Nat

/-- The transport `codec->hw_write(control_data, data, 2)`: given the frames sent before
and the frame to send, the byte count it reports. -/
abbrev hw_write_t := List frame_t → frame_t → Int

/-- The part of `struct snd_soc_codec` the drivers use: the `u16` register cache, the two
bias levels, and the log of the frames handed to the transport (oldest first). -/
structure snd_soc_codec where
  reg_cache : List Nat
  bias_level : snd_soc_bias_level
  suspend_bias_level : snd_soc_bias_level
  sent : List frame_t
deriving DecidableEq, Repr

/-- The two bytes `data[0] = (reg << 1) | ((value >> 8) & 0x0001)` and
`data[1] = value & 0x00ff`, each stored in a `u8`. -/
def wire_data (reg value : Nat) : frame_t :=
  ((((reg <<< 1) % 2 ^ 32) ||| ((value >>> 8) &&& 0x0001)) % 256, (value &&& 0x00ff) % 256)

/-- The decoding of a control frame the chip performs: the register index is the upper
seven bits of the first byte, the value is its lowest bit followed by the second byte. -/
def wire_decode (d : frame_t) : Nat × Nat :=
  (d.1 >>> 1, ((d.1 &&& 1) <<< 8) ||| d.2)

/-- The C operator `&&` on two unsigned values. -/
def logical_and (a b : Nat) : Nat :=
  if a ≠ 0 ∧ b ≠ 0 then 1 else 0

/-! ## wm8950 -/

/-- The constants of `wm8950.h` the driver uses. -/
structure wm8950_h where
  RESET : Nat
  POWER1 : Nat
  POWER2 : Nat
  POWER3 : Nat
  IFACE : Nat
  CLOCK : Nat
  ADD : Nat
  GPIO : Nat
  ADC : Nat
  PLLN : Nat
  PLLK1 : Nat
  PLLK2 : Nat
  PLLK3 : Nat
  CACHEREGNUM : Nat
  OPCLKDIV : Int
  MCLKDIV : Int
  ADCCLK : Int
  BCLKDIV : Int
deriving DecidableEq, Repr

/-- The reset defaults `wm8950_reg`. -/
def wm8950_reg : List Nat :=
  [0x0000, 0x0000, 0x0000, 0x0000,
   0x0050, 0x0000, 0x0140, 0x0000,
   0x0000, 0x0000, 0x0000, 0x00ff,
   0x0000, 0x0000, 0x0100, 0x00ff,
   0x0000, 0x0000, 0x012c, 0x002c,
   0x002c, 0x002c, 0x002c, 0x0000,
   0x0032, 0x0000, 0x0000, 0x0000,
   0x0000, 0x0000, 0x0000, 0x0000,
   0x0038, 0x000b, 0x0032, 0x0000,
   0x0008, 0x000c, 0x0093, 0x00e9,
   0x0000, 0x0000, 0x0000, 0x0000,
   0x0003, 0x0010, 0x0000, 0x0000,
   0x0000, 0x0002, 0x0000, 0x0000,
   0x0000, 0x0000, 0x0039, 0x0000,
   0x0000]

/-- Read the wm8950 register cache; the result is an `unsigned int`, so `-1` is
`4294967295`. -/
def wm8950_read_reg_cache (h : wm8950_h) (codec : snd_soc_codec) (reg : Nat) : Nat :=
  if reg = h.RESET then 0
  else if reg ≥ h.CACHEREGNUM then 4294967295
  else codec.reg_cache.getD reg 0

/-- Write the wm8950 register cache; `reg` is a `u16` here and the entry is a `u16`. -/
def wm8950_write_reg_cache (h : wm8950_h) (codec : snd_soc_codec) (reg value : Nat) :
    snd_soc_codec :=
  if reg ≥ h.CACHEREGNUM then codec
  else { codec with reg_cache := codec.reg_cache.set reg (value % 65536) }

/-- Write to the WM8950 register space: the cache first, then the transport. -/
def wm8950_write (h : wm8950_h) (hw : hw_write_t) (codec : snd_soc_codec)
    (reg value : Nat) : Int × snd_soc_codec :=
  let data := wire_data reg value
  let codec := wm8950_write_reg_cache h codec (reg % 65536) value
  let n := hw codec.sent data
  let codec := { codec with sent := codec.sent ++ [data] }
  if n = 2 then (0, codec) else (- EIO, codec)

/-! ## wm8956 -/

/-- The constants of `wm8956.h` the driver uses. -/
structure wm8956_h where
  RESET : Nat
  POWER1 : Nat
  POWER2 : Nat
  POWER3 : Nat
  IFACE1 : Nat
  DACCTL1 : Nat
  CLOCK1 : Nat
  CLOCK2 : Nat
  ADDCTL1 : Nat
  PLLN : Nat
  PLLK1 : Nat
  PLLK2 : Nat
  PLLK3 : Nat
  CACHEREGNUM : Nat
  SYSCLKSEL : Int
  SYSCLKDIV : Int
  DACDIV : Int
  OPCLKDIV : Int
  DCLKDIV : Int
  TOCLKSEL : Int
deriving DecidableEq, Repr

/-- The reset defaults `wm8956_reg`. -/
def wm8956_reg : List Nat :=
  [0x0097, 0x0097, 0x0000, 0x0000,
   0x0000, 0x0008, 0x0000, 0x000a,
   0x01c0, 0x0000, 0x00ff, 0x00ff,
   0x0000, 0x0000, 0x0000, 0x0000,
   0x0000, 0x007b, 0x0100, 0x0032,
   0x0000, 0x00c3, 0x00c3, 0x01c0,
   0x0000, 0x0000, 0x0000, 0x0000,
   0x0000, 0x0000, 0x0000, 0x0000,
   0x0100, 0x0100, 0x0050, 0x0050,
   0x0050, 0x0050, 0x0000, 0x0000,
   0x0000, 0x0000, 0x0040, 0x0000,
   0x0000, 0x0050, 0x0050, 0x0000,
   0x0002, 0x0037, 0x004d, 0x0080,
   0x0008, 0x0031, 0x0026, 0x00e9]

/-- Read the wm8956 register cache; the result is an `unsigned int`, so `-1` is
`4294967295`. -/
def wm8956_read_reg_cache (h : wm8956_h) (codec : snd_soc_codec) (reg : Nat) : Nat :=
  if reg = h.RESET then 0
  else if reg ≥ h.CACHEREGNUM then 4294967295
  else codec.reg_cache.getD reg 0

/-- Write the wm8956 register cache; `reg` is a `u16` here and the entry is a `u16`. -/
def wm8956_write_reg_cache (h : wm8956_h) (codec : snd_soc_codec) (reg value : Nat) :
    snd_soc_codec :=
  if reg ≥ h.CACHEREGNUM then codec
  else { codec with reg_cache := codec.reg_cache.set reg (value % 65536) }

/-- Write to the WM8956 register space: the cache first, then the transport. -/
def wm8956_write (h : wm8956_h) (hw : hw_write_t) (codec : snd_soc_codec)
    (reg value : Nat) : Int × snd_soc_codec :=
  let data := wire_data reg value
  let codec := wm8956_write_reg_cache h codec (reg % 65536) value
  let n := hw codec.sent data
  let codec := { codec with sent := codec.sent ++ [data] }
  if n = 2 then (0, codec) else (- EIO, codec)

/-! ## wm8956: computed PLL coefficients -/

/-- The PLL divisors `struct _pll_div`: bit-fields of 1, 4 and 24 bits. -/
structure _pll_div where
  pre_div : Nat
  n : Nat
  k : Nat
deriving DecidableEq, Repr

/-- The size in bits of the pll divide multiplied by 10 to allow rounding later. -/
def FIXED_PLL_SIZE : Nat := (1 <<< 24) * 10

/-- The function `pll_factors`: the value it stores in the static `pll_div`, or `none`
when one of its divisions divides by zero. `target` and `source` are `unsigned int`. -/
def pll_factors (target source : Nat) : Option _pll_div :=
  if source = 0 then none
  else
    let Ndiv := target / source
    let source1 := if Ndiv < 6 then source >>> 1 else source
    let pre_div := if Ndiv < 6 then 1 else 0
    if source1 = 0 then none
    else
      let Ndiv := if Ndiv < 6 then target / source1 else Ndiv
      let Nmod := target % source1
      let Kpart := (FIXED_PLL_SIZE * Nmod) % 2 ^ 64
      let Kpart := Kpart / source1
      let K := Kpart &&& 0xFFFFFFFF
      let K := if K % 10 ≥ 5 then (K + 5) % 2 ^ 32 else K
      let K := K / 10
      some { pre_div := pre_div % 2, n := Ndiv % 16, k := K % 2 ^ 24 }

/-- The source `pll_factors` divides by after its first step: `source >> 1` when
`target / source < 6`, else `source`. -/
def pll_source (target source : Nat) : Nat :=
  if target / source < 6 then source >>> 1 else source

/-- The function `wm8956_set_dai_pll`: its return value, the static `pll_div` and the
codec afterwards, or `none` when `pll_factors` faults. -/
def wm8956_set_dai_pll (h : wm8956_h) (hw : hw_write_t) (codec : snd_soc_codec)
    (freq_in freq_out : Nat) : Option (Int × _pll_div × snd_soc_codec) :=
  let found : Int := 0
  match pll_factors ((freq_out * 8) % 2 ^ 32) freq_in with
  | none => none
  | some pll_div =>
    if found = 0 then some (- EINVAL, pll_div, codec)
    else
      let reg := (wm8956_read_reg_cache h codec h.PLLN &&& 0x1e0) % 65536
      let codec := (wm8956_write h hw codec h.PLLN
        (reg ||| (1 <<< 5) ||| (pll_div.pre_div <<< 4) ||| pll_div.n)).2
      let codec := (wm8956_write h hw codec h.PLLK1 (pll_div.k >>> 16)).2
      let codec := (wm8956_write h hw codec h.PLLK2 ((pll_div.k >>> 8) &&& 0xff)).2
      let codec := (wm8956_write h hw codec h.PLLK3 (pll_div.k &&& 0xff)).2
      let codec := (wm8956_write h hw codec h.CLOCK1 4).2
      some (0, pll_div, codec)

/-! ## wm8950: tabulated PLL coefficients -/

/-- A row of the table: `struct pll_`. -/
structure pll_ where
  in_hz : Nat
  out_hz : Nat
  pre : Nat
  n : Nat
  k : Nat
deriving DecidableEq, Repr

/-- The table `pll[]`. -/
def pll : List pll_ :=
  [⟨12000000, 11289600, 0, 7, 0x86c220⟩,
   ⟨12000000, 12288000, 0, 8, 0x3126e8⟩,
   ⟨13000000, 11289600, 0, 6, 0xf28bd4⟩,
   ⟨13000000, 12288000, 0, 7, 0x8fd525⟩,
   ⟨12288000, 11289600, 0, 7, 0x59999a⟩,
   ⟨11289600, 12288000, 0, 8, 0x80dee9⟩]

/-- The loop of `wm8950_set_dai_pll` over the rows that are left: the first row with both
frequencies equal is written out, and no row gives `-EINVAL`. -/
def wm8950_set_dai_pll_loop (h : wm8950_h) (hw : hw_write_t) (codec : snd_soc_codec)
    (freq_in freq_out : Nat) : List pll_ → Int × snd_soc_codec
  | [] => (- EINVAL, codec)
  | row :: rest =>
    if freq_in = row.in_hz ∧ freq_out = row.out_hz then
      let codec := (wm8950_write h hw codec h.PLLN ((row.pre <<< 4) ||| row.n)).2
      let codec := (wm8950_write h hw codec h.PLLK1 (row.k >>> 18)).2
      let codec := (wm8950_write h hw codec h.PLLK1 (logical_and (row.k >>> 9) 0x1ff)).2
      let codec := (wm8950_write h hw codec h.PLLK1 (logical_and row.k 0x1ff)).2
      let reg := wm8950_read_reg_cache h codec h.POWER1 % 65536
      let codec := (wm8950_write h hw codec h.POWER1 (reg ||| 0x020)).2
      (0, codec)
    else wm8950_set_dai_pll_loop h hw codec freq_in freq_out rest

/-- The function `wm8950_set_dai_pll`. -/
def wm8950_set_dai_pll (h : wm8950_h) (hw : hw_write_t) (codec : snd_soc_codec)
    (freq_in freq_out : Nat) : Int × snd_soc_codec :=
  if freq_in = 0 ∨ freq_out = 0 then
    let reg := wm8950_read_reg_cache h codec h.POWER1 % 65536
    let codec := (wm8950_write h hw codec h.POWER1 (reg &&& 0x1df)).2
    (0, codec)
  else wm8950_set_dai_pll_loop h hw codec freq_in freq_out pll

/-! ## Sample register maps -/

/-- A register map for the WM8950 in which the reset defaults sit at their registers:
`IFACE` 0x050 at 4, `CLOCK` 0x140 at 6, `PLLN` 0x008 at 36, and 57 cached registers. -/
def wm8950_map : wm8950_h :=
  { RESET := 0x0, POWER1 := 0x1, POWER2 := 0x2, POWER3 := 0x3, IFACE := 0x4, CLOCK := 0x6,
    ADD := 0x7, GPIO := 0x8, ADC := 0xe, PLLN := 0x24, PLLK1 := 0x25, PLLK2 := 0x26,
    PLLK3 := 0x27, CACHEREGNUM := 57, OPCLKDIV := 0, MCLKDIV := 1, ADCCLK := 2,
    BCLKDIV := 4 }

/-- A register map for the WM8956 in which the reset defaults sit at their registers:
`IFACE1` 0x00a at 7, `CLOCK2` 0x1c0 at 8, `PLLN` 0x008 at 52, and 56 cached registers. -/
def wm8956_map : wm8956_h :=
  { RESET := 0xf, POWER1 := 0x19, POWER2 := 0x1a, POWER3 := 0x2f, IFACE1 := 0x7,
    DACCTL1 := 0x5, CLOCK1 := 0x4, CLOCK2 := 0x8, ADDCTL1 := 0x17, PLLN := 0x34,
    PLLK1 := 0x35, PLLK2 := 0x36, PLLK3 := 0x37, CACHEREGNUM := 56, SYSCLKSEL := 0,
    SYSCLKDIV := 1, DACDIV := 2, OPCLKDIV := 3, DCLKDIV := 4, TOCLKSEL := 5 }

/-- The codec right after registration of a WM8950: the cache holds the reset defaults. -/
def wm8950_codec0 : snd_soc_codec :=
  { reg_cache := wm8950_reg, bias_level := .SND_SOC_BIAS_OFF,
    suspend_bias_level := .SND_SOC_BIAS_OFF, sent := [] }

/-- The codec of a WM8956 whose cache holds the reset defaults. -/
def wm8956_codec0 : snd_soc_codec :=
  { reg_cache := wm8956_reg, bias_level := .SND_SOC_BIAS_OFF,
    suspend_bias_level := .SND_SOC_BIAS_OFF, sent := [] }

/-- A transport that always reports two bytes written. -/
def hw_ok : hw_write_t := fun _ _ => 2

/-- A transport that always reports a failure. -/
def hw_fail : hw_write_t := fun _ _ => -5


/-! ## Sound core constants -/

/-- The constants of the sound core headers the drivers use: the `SND_SOC_DAIFMT_*` masks
and field values of a format word, the `SNDRV_PCM_FORMAT_*` sample formats and the
`SNDRV_PCM_RATE_*` constants. -/
structure sound_h where
  SND_SOC_DAIFMT_MASTER_MASK : Nat
  SND_SOC_DAIFMT_FORMAT_MASK : Nat
  SND_SOC_DAIFMT_INV_MASK : Nat
  SND_SOC_DAIFMT_CBM_CFM : Nat
  SND_SOC_DAIFMT_CBS_CFS : Nat
  SND_SOC_DAIFMT_I2S : Nat
  SND_SOC_DAIFMT_RIGHT_J : Nat
  SND_SOC_DAIFMT_LEFT_J : Nat
  SND_SOC_DAIFMT_DSP_A : Nat
  SND_SOC_DAIFMT_DSP_B : Nat
  SND_SOC_DAIFMT_NB_NF : Nat
  SND_SOC_DAIFMT_IB_IF : Nat
  SND_SOC_DAIFMT_IB_NF : Nat
  SND_SOC_DAIFMT_NB_IF : Nat
  SNDRV_PCM_FORMAT_S16_LE : Int
  SNDRV_PCM_FORMAT_S20_3LE : Int
  SNDRV_PCM_FORMAT_S24_LE : Int
  SNDRV_PCM_FORMAT_S32_LE : Int
  SNDRV_PCM_RATE_8000 : Nat
  SNDRV_PCM_RATE_11025 : Nat
  SNDRV_PCM_RATE_16000 : Nat
  SNDRV_PCM_RATE_22050 : Nat
  SNDRV_PCM_RATE_32000 : Nat
  SNDRV_PCM_RATE_44100 : Nat
deriving DecidableEq, Repr

/-! ## wm8950: clock dividers, format, stream parameters, bias, resume -/

/-- The function `wm8950_set_dai_clkdiv`; `div` is the 32-bit pattern of the `int`
argument. The mask sits inside the call of `wm8950_read_reg_cache`, on the register
number. -/
def wm8950_set_dai_clkdiv (h : wm8950_h) (hw : hw_write_t) (codec : snd_soc_codec)
    (div_id : Int) (div : Nat) : Int × snd_soc_codec :=
  if div_id = h.OPCLKDIV then
    let reg := wm8950_read_reg_cache h codec ( wm8950_h.GPIO h &&& 0x1cf) % 65536
    let codec := (wm8950_write h hw codec ( wm8950_h.GPIO h) (reg ||| div)).2
    (0, codec)
  else if div_id = h.MCLKDIV then
    let reg := wm8950_read_reg_cache h codec (h.CLOCK &&& 0x1f) % 65536
    let codec := (wm8950_write h hw codec h.CLOCK (reg ||| div)).2
    (0, codec)
  else if div_id = h.ADCCLK then
    let reg := wm8950_read_reg_cache h codec (h.ADC &&& 0x1f7) % 65536
    let codec := (wm8950_write h hw codec h.ADC (reg ||| div)).2
    (0, codec)
  else if div_id = h.BCLKDIV then
    let reg := wm8950_read_reg_cache h codec (h.CLOCK &&& 0x1e3) % 65536
    let codec := (wm8950_write h hw codec h.CLOCK (reg ||| div)).2
    (0, codec)
  else (- EINVAL, codec)

/-- The first switch of `wm8950_set_dai_fmt`: the new `clk`, or `none` for `default`. -/
def wm8950_fmt_master (s : sound_h) (fmt clk : Nat) : Option Nat :=
  if fmt &&& s.SND_SOC_DAIFMT_MASTER_MASK = s.SND_SOC_DAIFMT_CBM_CFM then
    some ((clk ||| 0x0001) % 65536)
  else if fmt &&& s.SND_SOC_DAIFMT_MASTER_MASK = s.SND_SOC_DAIFMT_CBS_CFS then some clk
  else none

/-- The second switch of `wm8950_set_dai_fmt`: the new `iface`, or `none` for `default`. -/
def wm8950_fmt_format (s : sound_h) (fmt iface : Nat) : Option Nat :=
  if fmt &&& s.SND_SOC_DAIFMT_FORMAT_MASK = s.SND_SOC_DAIFMT_I2S then
    some ((iface ||| 0x0010) % 65536)
  else if fmt &&& s.SND_SOC_DAIFMT_FORMAT_MASK = s.SND_SOC_DAIFMT_RIGHT_J then some iface
  else if fmt &&& s.SND_SOC_DAIFMT_FORMAT_MASK = s.SND_SOC_DAIFMT_LEFT_J then
    some ((iface ||| 0x0008) % 65536)
  else if fmt &&& s.SND_SOC_DAIFMT_FORMAT_MASK = s.SND_SOC_DAIFMT_DSP_A then
    some ((iface ||| 0x00018) % 65536)
  else none

/-- The third switch of `wm8950_set_dai_fmt`: the new `iface`, or `none` for `default`. -/
def wm8950_fmt_inv (s : sound_h) (fmt iface : Nat) : Option Nat :=
  if fmt &&& s.SND_SOC_DAIFMT_INV_MASK = s.SND_SOC_DAIFMT_NB_NF then some iface
  else if fmt &&& s.SND_SOC_DAIFMT_INV_MASK = s.SND_SOC_DAIFMT_IB_IF then
    some ((iface ||| 0x0180) % 65536)
  else if fmt &&& s.SND_SOC_DAIFMT_INV_MASK = s.SND_SOC_DAIFMT_IB_NF then
    some ((iface ||| 0x0100) % 65536)
  else if fmt &&& s.SND_SOC_DAIFMT_INV_MASK = s.SND_SOC_DAIFMT_NB_IF then
    some ((iface ||| 0x0080) % 65536)
  else none

/-- The function `wm8950_set_dai_fmt`. -/
def wm8950_set_dai_fmt (h : wm8950_h) (s : sound_h) (hw : hw_write_t)
    (codec : snd_soc_codec) (fmt : Nat) : Int × snd_soc_codec :=
  let iface : Nat := 0
  let clk := (wm8950_read_reg_cache h codec h.CLOCK &&& 0x1fe) % 65536
  match wm8950_fmt_master s fmt clk with
  | none => (- EINVAL, codec)
  | some clk =>
    match wm8950_fmt_format s fmt iface with
    | none => (- EINVAL, codec)
    | some iface =>
      match wm8950_fmt_inv s fmt iface with
      | none => (- EINVAL, codec)
      | some iface =>
        let codec := (wm8950_write h hw codec h.IFACE iface).2
        let codec := (wm8950_write h hw codec h.CLOCK clk).2
        (0, codec)

/-- The bit size switch of `wm8950_pcm_hw_params`: the new `iface`. -/
def wm8950_hw_iface (s : sound_h) (format : Int) (iface : Nat) : Nat :=
  if format = s.SNDRV_PCM_FORMAT_S16_LE then iface
  else if format = s.SNDRV_PCM_FORMAT_S20_3LE then (iface ||| 0x0020) % 65536
  else if format = s.SNDRV_PCM_FORMAT_S24_LE then (iface ||| 0x0040) % 65536
  else if format = s.SNDRV_PCM_FORMAT_S32_LE then (iface ||| 0x0060) % 65536
  else iface

/-- The filter coefficient switch of `wm8950_pcm_hw_params`: the new `adn`. -/
def wm8950_hw_adn (s : sound_h) (rate : Nat) (adn : Nat) : Nat :=
  if rate = s.SNDRV_PCM_RATE_8000 then (adn ||| (0x5 <<< 1)) % 65536
  else if rate = s.SNDRV_PCM_RATE_11025 then (adn ||| (0x4 <<< 1)) % 65536
  else if rate = s.SNDRV_PCM_RATE_16000 then (adn ||| (0x3 <<< 1)) % 65536
  else if rate = s.SNDRV_PCM_RATE_22050 then (adn ||| (0x2 <<< 1)) % 65536
  else if rate = s.SNDRV_PCM_RATE_32000 then (adn ||| (0x1 <<< 1)) % 65536
  else if rate = s.SNDRV_PCM_RATE_44100 then adn
  else adn

/-- The function `wm8950_pcm_hw_params`, given `params_format(params)` and
`params_rate(params)`. -/
def wm8950_pcm_hw_params (h : wm8950_h) (s : sound_h) (hw : hw_write_t)
    (codec : snd_soc_codec) (format : Int) (rate : Nat) : Int × snd_soc_codec :=
  let iface := (wm8950_read_reg_cache h codec h.IFACE &&& 0x19f) % 65536
  let adn := (wm8950_read_reg_cache h codec h.ADD &&& 0x1f1) % 65536
  let iface := wm8950_hw_iface s format iface
  let adn := wm8950_hw_adn s rate adn
  let codec := (wm8950_write h hw codec h.IFACE iface).2
  let codec := (wm8950_write h hw codec h.ADD adn).2
  (0, codec)

/-- The function `wm8950_set_bias_level`. -/
def wm8950_set_bias_level (h : wm8950_h) (hw : hw_write_t) (codec : snd_soc_codec)
    (level : snd_soc_bias_level) : Int × snd_soc_codec :=
  let codec :=
    match level with
    | .SND_SOC_BIAS_ON =>
      let codec := (wm8950_write h hw codec h.POWER1 0x1ff).2
      let codec := (wm8950_write h hw codec h.POWER2 0x1ff).2
      (wm8950_write h hw codec h.POWER3 0x1ff).2
    | .SND_SOC_BIAS_PREPARE => codec
    | .SND_SOC_BIAS_STANDBY => codec
    | .SND_SOC_BIAS_OFF =>
      let codec := (wm8950_write h hw codec h.POWER1 0x0).2
      let codec := (wm8950_write h hw codec h.POWER2 0x0).2
      (wm8950_write h hw codec h.POWER3 0x0).2
  (0, { codec with bias_level := level })

/-- One turn of the loop of the resume functions: the frame of `cache[i]` is handed to
the transport and its result is dropped. -/
def resume_step (codec : snd_soc_codec) (i : Nat) : snd_soc_codec :=
  { codec with sent := codec.sent ++ [wire_data i (codec.reg_cache.getD i 0)] }

/-- The function `wm8950_resume`; `ARRAY_SIZE(wm8950_reg)` is `WM8950_CACHEREGNUM`. -/
def wm8950_resume (h : wm8950_h) (hw : hw_write_t) (codec : snd_soc_codec) :
    Int × snd_soc_codec :=
  let codec := (List.range h.CACHEREGNUM).foldl resume_step codec
  let codec := (wm8950_set_bias_level h hw codec .SND_SOC_BIAS_STANDBY).2
  let codec := (wm8950_set_bias_level h hw codec codec.suspend_bias_level).2
  (0, codec)

/-! ## wm8956: clock dividers, format, stream parameters, bias, resume -/

/-- The first switch of `wm8956_set_dai_fmt`: the new `iface`, or `none` for `default`. -/
def wm8956_fmt_master (s : sound_h) (fmt iface : Nat) : Option Nat :=
  if fmt &&& s.SND_SOC_DAIFMT_MASTER_MASK = s.SND_SOC_DAIFMT_CBM_CFM then
    some ((iface ||| 0x0040) % 65536)
  else if fmt &&& s.SND_SOC_DAIFMT_MASTER_MASK = s.SND_SOC_DAIFMT_CBS_CFS then some iface
  else none

/-- The second switch of `wm8956_set_dai_fmt`: the new `iface`, or `none` for `default`. -/
def wm8956_fmt_format (s : sound_h) (fmt iface : Nat) : Option Nat :=
  if fmt &&& s.SND_SOC_DAIFMT_FORMAT_MASK = s.SND_SOC_DAIFMT_I2S then
    some ((iface ||| 0x0002) % 65536)
  else if fmt &&& s.SND_SOC_DAIFMT_FORMAT_MASK = s.SND_SOC_DAIFMT_RIGHT_J then some iface
  else if fmt &&& s.SND_SOC_DAIFMT_FORMAT_MASK = s.SND_SOC_DAIFMT_LEFT_J then
    some ((iface ||| 0x0001) % 65536)
  else if fmt &&& s.SND_SOC_DAIFMT_FORMAT_MASK = s.SND_SOC_DAIFMT_DSP_A then
    some ((iface ||| 0x0003) % 65536)
  else if fmt &&& s.SND_SOC_DAIFMT_FORMAT_MASK = s.SND_SOC_DAIFMT_DSP_B then
    some ((iface ||| 0x0013) % 65536)
  else none

/-- The third switch of `wm8956_set_dai_fmt`: the new `iface`, or `none` for `default`. -/
def wm8956_fmt_inv (s : sound_h) (fmt iface : Nat) : Option Nat :=
  if fmt &&& s.SND_SOC_DAIFMT_INV_MASK = s.SND_SOC_DAIFMT_NB_NF then some iface
  else if fmt &&& s.SND_SOC_DAIFMT_INV_MASK = s.SND_SOC_DAIFMT_IB_IF then
    some ((iface ||| 0x0090) % 65536)
  else if fmt &&& s.SND_SOC_DAIFMT_INV_MASK = s.SND_SOC_DAIFMT_IB_NF then
    some ((iface ||| 0x0080) % 65536)
  else if fmt &&& s.SND_SOC_DAIFMT_INV_MASK = s.SND_SOC_DAIFMT_NB_IF then
    some ((iface ||| 0x0010) % 65536)
  else none

/-- The function `wm8956_set_dai_fmt`. -/
def wm8956_set_dai_fmt (h : wm8956_h) (s : sound_h) (hw : hw_write_t)
    (codec : snd_soc_codec) (fmt : Nat) : Int × snd_soc_codec :=
  let iface : Nat := 0
  match wm8956_fmt_master s fmt iface with
  | none => (- EINVAL, codec)
  | some iface =>
    match wm8956_fmt_format s fmt iface with
    | none => (- EINVAL, codec)
    | some iface =>
      match wm8956_fmt_inv s fmt iface with
      | none => (- EINVAL, codec)
      | some iface =>
        let codec := (wm8956_write h hw codec h.IFACE1 iface).2
        (0, codec)

/-- The bit size switch of `wm8956_hw_params`: the new `iface`. -/
def wm8956_hw_iface (s : sound_h) (format : Int) (iface : Nat) : Nat :=
  if format = s.SNDRV_PCM_FORMAT_S16_LE then iface
  else if format = s.SNDRV_PCM_FORMAT_S20_3LE then (iface ||| 0x0004) % 65536
  else if format = s.SNDRV_PCM_FORMAT_S24_LE then (iface ||| 0x0008) % 65536
  else iface

/-- The function `wm8956_hw_params`, given `params_format(params)`. -/
def wm8956_hw_params (h : wm8956_h) (s : sound_h) (hw : hw_write_t)
    (codec : snd_soc_codec) (format : Int) : Int × snd_soc_codec :=
  let iface := (wm8956_read_reg_cache h codec h.IFACE1 &&& 0xfff3) % 65536
  let iface := wm8956_hw_iface s format iface
  let codec := (wm8956_write h hw codec h.IFACE1 iface).2
  (0, codec)

/-- The function `wm8956_set_bias_level`: the switch on the level is compiled out. -/
def wm8956_set_bias_level (h : wm8956_h) (hw : hw_write_t) (codec : snd_soc_codec)
    (event : snd_soc_bias_level) : Int × snd_soc_codec :=
  let codec := (wm8956_write h hw codec h.POWER1 0xfffe).2
  let codec := (wm8956_write h hw codec h.POWER2 0xffff).2
  let codec := (wm8956_write h hw codec h.POWER3 0xffff).2
  (0, { codec with bias_level := event })

/-- The function `wm8956_set_dai_clkdiv`; `div` is the 32-bit pattern of the `int`
argument. -/
def wm8956_set_dai_clkdiv (h : wm8956_h) (hw : hw_write_t) (codec : snd_soc_codec)
    (div_id : Int) (div : Nat) : Int × snd_soc_codec :=
  if div_id = h.SYSCLKSEL then
    let reg := (wm8956_read_reg_cache h codec h.CLOCK1 &&& 0x1fe) % 65536
    let codec := (wm8956_write h hw codec h.CLOCK1 (reg ||| div)).2
    (0, codec)
  else if div_id = h.SYSCLKDIV then
    let reg := (wm8956_read_reg_cache h codec h.CLOCK1 &&& 0x1f9) % 65536
    let codec := (wm8956_write h hw codec h.CLOCK1 (reg ||| div)).2
    (0, codec)
  else if div_id = h.DACDIV then
    let reg := (wm8956_read_reg_cache h codec h.CLOCK1 &&& 0x1c7) % 65536
    let codec := (wm8956_write h hw codec h.CLOCK1 (reg ||| div)).2
    (0, codec)
  else if div_id = h.OPCLKDIV then
    let reg := (wm8956_read_reg_cache h codec h.PLLN &&& 0x03f) % 65536
    let codec := (wm8956_write h hw codec h.PLLN (reg ||| div)).2
    (0, codec)
  else if div_id = h.DCLKDIV then
    let reg := (wm8956_read_reg_cache h codec h.CLOCK2 &&& 0x03f) % 65536
    let codec := (wm8956_write h hw codec h.CLOCK2 (reg ||| div)).2
    (0, codec)
  else if div_id = h.TOCLKSEL then
    let reg := (wm8956_read_reg_cache h codec h.ADDCTL1 &&& 0x1fd) % 65536
    let codec := (wm8956_write h hw codec h.ADDCTL1 (reg ||| div)).2
    (0, codec)
  else (- EINVAL, codec)

/-- The function `wm8956_resume`; `ARRAY_SIZE(wm8956_reg)` is `WM8956_CACHEREGNUM`. -/
def wm8956_resume (h : wm8956_h) (hw : hw_write_t) (codec : snd_soc_codec) :
    Int × snd_soc_codec :=
  let codec := (List.range h.CACHEREGNUM).foldl resume_step codec
  let codec := (wm8956_set_bias_level h hw codec .SND_SOC_BIAS_STANDBY).2
  let codec := (wm8956_set_bias_level h hw codec codec.suspend_bias_level).2
  (0, codec)

/-- A sample assignment of the sound core constants: format field in bits 0..3,
inversion in bits 8..11, master in bits 12..15. -/
def sound_map : sound_h :=
  { SND_SOC_DAIFMT_MASTER_MASK := 0xf000, SND_SOC_DAIFMT_FORMAT_MASK := 0x000f,
    SND_SOC_DAIFMT_INV_MASK := 0x0f00, SND_SOC_DAIFMT_CBM_CFM := 0x0000,
    SND_SOC_DAIFMT_CBS_CFS := 0x3000, SND_SOC_DAIFMT_I2S := 0,
    SND_SOC_DAIFMT_RIGHT_J := 1, SND_SOC_DAIFMT_LEFT_J := 2, SND_SOC_DAIFMT_DSP_A := 3,
    SND_SOC_DAIFMT_DSP_B := 4, SND_SOC_DAIFMT_NB_NF := 0x0000,
    SND_SOC_DAIFMT_IB_IF := 0x0300, SND_SOC_DAIFMT_IB_NF := 0x0200,
    SND_SOC_DAIFMT_NB_IF := 0x0100, SNDRV_PCM_FORMAT_S16_LE := 2,
    SNDRV_PCM_FORMAT_S20_3LE := 24, SNDRV_PCM_FORMAT_S24_LE := 6,
    SNDRV_PCM_FORMAT_S32_LE := 10, SNDRV_PCM_RATE_8000 := 2, SNDRV_PCM_RATE_11025 := 4,
    SNDRV_PCM_RATE_16000 := 8, SNDRV_PCM_RATE_22050 := 16, SNDRV_PCM_RATE_32000 := 32,
    SNDRV_PCM_RATE_44100 := 64 }

/-! ## Recognized format words -/

/-- The master/slave field of a format word is one `set_dai_fmt` has a case for. -/
abbrev master_recognized (s : sound_h) (fmt : Nat) : Prop :=
  fmt &&& s.SND_SOC_DAIFMT_MASTER_MASK = s.SND_SOC_DAIFMT_CBM_CFM ∨
  fmt &&& s.SND_SOC_DAIFMT_MASTER_MASK = s.SND_SOC_DAIFMT_CBS_CFS

/-- The interface-format field is one `wm8950_set_dai_fmt` has a case for. -/
abbrev wm8950_format_recognized (s : sound_h) (fmt : Nat) : Prop :=
  fmt &&& s.SND_SOC_DAIFMT_FORMAT_MASK = s.SND_SOC_DAIFMT_I2S ∨
  fmt &&& s.SND_SOC_DAIFMT_FORMAT_MASK = s.SND_SOC_DAIFMT_RIGHT_J ∨
  fmt &&& s.SND_SOC_DAIFMT_FORMAT_MASK = s.SND_SOC_DAIFMT_LEFT_J ∨
  fmt &&& s.SND_SOC_DAIFMT_FORMAT_MASK = s.SND_SOC_DAIFMT_DSP_A

/-- The interface-format field is one `wm8956_set_dai_fmt` has a case for. -/
abbrev wm8956_format_recognized (s : sound_h) (fmt : Nat) : Prop :=
  fmt &&& s.SND_SOC_DAIFMT_FORMAT_MASK = s.SND_SOC_DAIFMT_I2S ∨
  fmt &&& s.SND_SOC_DAIFMT_FORMAT_MASK = s.SND_SOC_DAIFMT_RIGHT_J ∨
  fmt &&& s.SND_SOC_DAIFMT_FORMAT_MASK = s.SND_SOC_DAIFMT_LEFT_J ∨
  fmt &&& s.SND_SOC_DAIFMT_FORMAT_MASK = s.SND_SOC_DAIFMT_DSP_A ∨
  fmt &&& s.SND_SOC_DAIFMT_FORMAT_MASK = s.SND_SOC_DAIFMT_DSP_B

/-- The clock-inversion field is one `set_dai_fmt` has a case for. -/
abbrev inv_recognized (s : sound_h) (fmt : Nat) : Prop :=
  fmt &&& s.SND_SOC_DAIFMT_INV_MASK = s.SND_SOC_DAIFMT_NB_NF ∨
  fmt &&& s.SND_SOC_DAIFMT_INV_MASK = s.SND_SOC_DAIFMT_IB_IF ∨
  fmt &&& s.SND_SOC_DAIFMT_INV_MASK = s.SND_SOC_DAIFMT_IB_NF ∨
  fmt &&& s.SND_SOC_DAIFMT_INV_MASK = s.SND_SOC_DAIFMT_NB_IF

/-! ## Well-formed headers and the divider fields -/

/-- The registers `wm8950.c` names. -/
def wm8950_h.regs (h : wm8950_h) : List Nat :=
  [h.POWER1, h.POWER2, h.POWER3, h.IFACE, h.CLOCK, h.ADD, wm8950_h.GPIO h, h.ADC, h.PLLN,
   h.PLLK1, h.PLLK2, h.PLLK3]

/-- A `wm8950.h` is well formed when the cache index fits the `u16` of
`wm8950_write_reg_cache`, the named registers are cached, are not the reset register and
are distinct, and the divider identifiers are distinct. -/
def wm8950_h.valid (h : wm8950_h) : Prop :=
  h.CACHEREGNUM ≤ 65536 ∧ (∀ r ∈ h.regs, r < h.CACHEREGNUM ∧ r ≠ h.RESET) ∧ h.regs.Nodup ∧
  [h.OPCLKDIV, h.MCLKDIV, h.ADCCLK, h.BCLKDIV].Nodup

instance (h : wm8950_h) : Decidable h.valid := by
  unfold wm8950_h.valid
  infer_instance

/-- The registers `wm8956.c` names. -/
def wm8956_h.regs (h : wm8956_h) : List Nat :=
  [h.POWER1, h.POWER2, h.POWER3, h.IFACE1, h.DACCTL1, h.CLOCK1, h.CLOCK2, h.ADDCTL1, h.PLLN,
   h.PLLK1, h.PLLK2, h.PLLK3]

/-- A `wm8956.h` is well formed when the cache index fits the `u16` of
`wm8956_write_reg_cache`, the named registers are cached, are not the reset register and
are distinct, and the divider identifiers are distinct. -/
def wm8956_h.valid (h : wm8956_h) : Prop :=
  h.CACHEREGNUM ≤ 65536 ∧ (∀ r ∈ h.regs, r < h.CACHEREGNUM ∧ r ≠ h.RESET) ∧ h.regs.Nodup ∧
  [h.SYSCLKSEL, h.SYSCLKDIV, h.DACDIV, h.OPCLKDIV, h.DCLKDIV, h.TOCLKSEL].Nodup

instance (h : wm8956_h) : Decidable h.valid := by
  unfold wm8956_h.valid
  infer_instance

/-- The divider fields of the wm8956 as the specification names them: the domain, the
register that owns the field, the lowest bit of the field and its width. -/
def wm8956_clkdiv_fields (h : wm8956_h) : List (Int × Nat × Nat × Nat) :=
  [(h.SYSCLKSEL, h.CLOCK1, 0, 1), (h.SYSCLKDIV, h.CLOCK1, 1, 2), (h.DACDIV, h.CLOCK1, 3, 3),
   (h.OPCLKDIV, h.PLLN, 6, 3), (h.DCLKDIV, h.CLOCK2, 6, 3), (h.TOCLKSEL, h.ADDCTL1, 1, 1)]

/-- Bit `b` lies in the field of `w` bits that starts at bit `lo`. -/
abbrev in_field (lo w b : Nat) : Prop := lo ≤ b ∧ b < lo + w

/-- The word-length codes of the wm8950 as the specification names them: the sample
format of a depth and the code of that depth (16, 20, 24 and 32 bits). -/
def wm8950_word_length (s : sound_h) : List (Int × Nat) :=
  [(s.SNDRV_PCM_FORMAT_S16_LE, 0), (s.SNDRV_PCM_FORMAT_S20_3LE, 1),
   (s.SNDRV_PCM_FORMAT_S24_LE, 2), (s.SNDRV_PCM_FORMAT_S32_LE, 3)]

/-- The word-length codes of the wm8956 as the specification names them: the sample
format of a depth and the code of that depth (16, 20 and 24 bits). -/
def wm8956_word_length (s : sound_h) : List (Int × Nat) :=
  [(s.SNDRV_PCM_FORMAT_S16_LE, 0), (s.SNDRV_PCM_FORMAT_S20_3LE, 1),
   (s.SNDRV_PCM_FORMAT_S24_LE, 2)]

/-- The sample formats of the sound core header are distinct constants. -/
def sound_h.formats_distinct (s : sound_h) : Prop :=
  [s.SNDRV_PCM_FORMAT_S16_LE, s.SNDRV_PCM_FORMAT_S20_3LE, s.SNDRV_PCM_FORMAT_S24_LE,
   s.SNDRV_PCM_FORMAT_S32_LE].Nodup

instance (s : sound_h) : Decidable s.formats_distinct := by
  unfold sound_h.formats_distinct
  infer_instance

/-- The replay of a cache as the specification describes it: the wire encodings of
`(i, cache[i])` for `i = 0, 1, ..., n - 1`, in ascending order. -/
def replay_frames (c : snd_soc_codec) (n : Nat) : List frame_t :=
  (List.range n).map (fun i => wire_data i (c.reg_cache.getD i 0))

/-! ## Bit arithmetic -/

theorem shiftLeft_one_or (a b : Nat) (hb : b < 2) : (a <<< 1) ||| b = 2 * a + b := by
  have h := Nat.mul_add_lt_is_or (i := 1) (b := b) (by simpa using hb) a
  rw [Nat.shiftLeft_eq, Nat.mul_comm a, ← h]

theorem and_ff_eq_mod (v : Nat) : v &&& 0xff = v % 256 :=
  Nat.and_pow_two_sub_one_eq_mod v 8

theorem shiftRight_and_one (v : Nat) : (v >>> 8) &&& 1 = v / 256 % 2 := by
  rw [Nat.and_one_is_mod, Nat.shiftRight_eq_div_pow]

theorem wire_data_eq (reg value : Nat) :
    wire_data reg value = ((2 * reg + value / 256 % 2) % 256, value % 256) := by
  unfold wire_data
  have h1 : (reg <<< 1) % 2 ^ 32 = (reg % 2 ^ 31) <<< 1 := by
    rw [Nat.shiftLeft_eq, Nat.shiftLeft_eq]; omega
  have h2 : (value >>> 8) &&& 0x0001 = value / 256 % 2 := shiftRight_and_one value
  have h3 : value &&& 0x00ff = value % 256 := and_ff_eq_mod value
  rw [h1, h2, h3, shiftLeft_one_or _ _ (Nat.mod_lt _ (by decide))]
  refine Prod.ext ?_ ?_
  · show (2 * (reg % 2 ^ 31) + value / 256 % 2) % 256 = (2 * reg + value / 256 % 2) % 256
    omega
  · show value % 256 % 256 = value % 256
    omega

/-! ## Register cache -/

theorem wm8950_write_snd (h : wm8950_h) (hw : hw_write_t) (c : snd_soc_codec)
    (reg value : Nat) :
    (wm8950_write h hw c reg value).2 =
      { wm8950_write_reg_cache h c (reg % 65536) value with
        sent := c.sent ++ [wire_data reg value] } := by
  unfold wm8950_write wm8950_write_reg_cache
  simp only []
  split <;> split <;> rfl

theorem wm8956_write_snd (h : wm8956_h) (hw : hw_write_t) (c : snd_soc_codec)
    (reg value : Nat) :
    (wm8956_write h hw c reg value).2 =
      { wm8956_write_reg_cache h c (reg % 65536) value with
        sent := c.sent ++ [wire_data reg value] } := by
  unfold wm8956_write wm8956_write_reg_cache
  simp only []
  split <;> split <;> rfl

theorem wm8950_write_cache (h : wm8950_h) (hw : hw_write_t) (c : snd_soc_codec)
    (i v : Nat) (hi : i < h.CACHEREGNUM) (hn : h.CACHEREGNUM ≤ 65536) :
    (wm8950_write h hw c i v).2.reg_cache = c.reg_cache.set i (v % 65536) := by
  have hm : i % 65536 = i := Nat.mod_eq_of_lt (by omega)
  rw [wm8950_write_snd, hm]
  simp [wm8950_write_reg_cache, Nat.not_le.mpr hi]

theorem wm8956_write_cache (h : wm8956_h) (hw : hw_write_t) (c : snd_soc_codec)
    (i v : Nat) (hi : i < h.CACHEREGNUM) (hn : h.CACHEREGNUM ≤ 65536) :
    (wm8956_write h hw c i v).2.reg_cache = c.reg_cache.set i (v % 65536) := by
  have hm : i % 65536 = i := Nat.mod_eq_of_lt (by omega)
  rw [wm8956_write_snd, hm]
  simp [wm8956_write_reg_cache, Nat.not_le.mpr hi]

theorem getD_set (l : List Nat) (i j v : Nat) (hi : i < l.length) :
    (l.set i v).getD j 0 = if j = i then v else l.getD j 0 := by
  simp only [List.getD_eq_getElem?_getD, List.getElem?_set]
  by_cases hji : j = i
  · subst hji; simp [hi]
  · have : ¬ i = j := fun e => hji e.symm
    simp [hji, this]

/-- C1: in both drivers, writing a value `v` to a register index below the cache size and
then reading that index gives back `v` reduced to the 16 bits of a cache entry, hence `v`
itself for every 16-bit register value, whatever the transport reports; the reset
register reads 0 instead. -/
theorem write_then_read (h0 : wm8950_h) (h6 : wm8956_h) (hw : hw_write_t)
    (c0 c6 : snd_soc_codec) (i j v : Nat)
    (hn0 : h0.CACHEREGNUM ≤ 65536) (hl0 : c0.reg_cache.length = h0.CACHEREGNUM)
    (hi : i < h0.CACHEREGNUM)
    (hn6 : h6.CACHEREGNUM ≤ 65536) (hl6 : c6.reg_cache.length = h6.CACHEREGNUM)
    (hj : j < h6.CACHEREGNUM) :
    (wm8950_read_reg_cache h0 (wm8950_write h0 hw c0 i v).2 i
        = if i = h0.RESET then 0 else v % 65536) ∧
    (wm8956_read_reg_cache h6 (wm8956_write h6 hw c6 j v).2 j
        = if j = h6.RESET then 0 else v % 65536) ∧
    (v < 65536 →
      wm8950_read_reg_cache h0 (wm8950_write h0 hw c0 i v).2 i
        = (if i = h0.RESET then 0 else v) ∧
      wm8956_read_reg_cache h6 (wm8956_write h6 hw c6 j v).2 j
        = (if j = h6.RESET then 0 else v)) := by
  have e0 : wm8950_read_reg_cache h0 (wm8950_write h0 hw c0 i v).2 i
      = if i = h0.RESET then 0 else v % 65536 := by
    unfold wm8950_read_reg_cache
    rw [wm8950_write_cache h0 hw c0 i v hi hn0, getD_set _ _ _ _ (by omega)]
    simp [Nat.not_le.mpr hi]
  have e6 : wm8956_read_reg_cache h6 (wm8956_write h6 hw c6 j v).2 j
      = if j = h6.RESET then 0 else v % 65536 := by
    unfold wm8956_read_reg_cache
    rw [wm8956_write_cache h6 hw c6 j v hj hn6, getD_set _ _ _ _ (by omega)]
    simp [Nat.not_le.mpr hj]
  refine ⟨e0, e6, fun hv => ?_⟩
  rw [e0, e6, Nat.mod_eq_of_lt hv]
  exact ⟨rfl, rfl⟩

/-- Witness of C1: the interface register of each chip, value 0x1a5, over a failing
transport, from the reset defaults. -/
theorem write_then_read_witness :
    wm8950_read_reg_cache wm8950_map (wm8950_write wm8950_map hw_fail wm8950_codec0 4 0x1a5).2 4
      = 0x1a5 ∧
    wm8956_read_reg_cache wm8956_map (wm8956_write wm8956_map hw_fail wm8956_codec0 7 0x1a5).2 7
      = 0x1a5 :=
  (write_then_read wm8950_map wm8956_map hw_fail wm8950_codec0 wm8956_codec0 4 7 0x1a5
    (by decide) (by decide) (by decide) (by decide) (by decide) (by decide)).2.2 (by decide)

/-- C2: the frame `wm8950_write` and `wm8956_write` hand to the transport is
`byte0 = ((index << 1) | ((value >> 8) & 1))` truncated to 8 bits and `byte1 = value & 0xFF`,
and for an index in [0,127] and a value in [0,0x1FF] decoding it as
`index = byte0 >> 1`, `value = ((byte0 & 1) << 8) | byte1` gives back `(index, value)`. -/
theorem wire_frame_roundtrip (h0 : wm8950_h) (h6 : wm8956_h) (hw : hw_write_t)
    (c : snd_soc_codec) (index value : Nat) (hi : index ≤ 127) (hv : value ≤ 0x1FF) :
    (wm8950_write h0 hw c index value).2.sent = c.sent ++ [wire_data index value] ∧
    (wm8956_write h6 hw c index value).2.sent = c.sent ++ [wire_data index value] ∧
    wire_data index value
      = (((index <<< 1) ||| ((value >>> 8) &&& 1)) % 256, value &&& 0xFF) ∧
    wire_decode (wire_data index value) = (index, value) := by
  refine ⟨by rw [wm8950_write_snd], by rw [wm8956_write_snd], ?_, ?_⟩
  · rw [wire_data_eq, shiftRight_and_one, and_ff_eq_mod,
      shiftLeft_one_or _ _ (Nat.mod_lt _ (by decide))]
  · rw [wire_data_eq]
    unfold wire_decode
    have hb : (2 * index + value / 256 % 2) % 256 = 2 * index + value / 256 := by omega
    have h1 : (2 * index + value / 256) >>> 1 = index := by
      rw [Nat.shiftRight_eq_div_pow]; omega
    have h2 : (2 * index + value / 256) &&& 1 = value / 256 := by
      rw [Nat.and_one_is_mod]; omega
    have h3 : (value / 256) <<< 8 ||| value % 256 = value := by
      have h := Nat.mul_add_lt_is_or (i := 8) (b := value % 256)
        (Nat.mod_lt _ (by decide)) (value / 256)
      rw [Nat.shiftLeft_eq, Nat.mul_comm, ← h]
      omega
    simp only [hb, h1, h2, h3]

/-- Witness of C2: the largest index and the largest value. -/
theorem wire_frame_roundtrip_witness :
    wire_data 127 0x1FF = (255, 255) ∧ wire_decode (wire_data 127 0x1FF) = (127, 0x1FF) :=
  have h := wire_frame_roundtrip wm8950_map wm8956_map hw_ok wm8950_codec0 127 0x1FF
    (by decide) (by decide)
  ⟨h.2.2.1.trans (by decide), h.2.2.2⟩

/-- C3: in both drivers `write(index, value)` returns `-EIO` exactly when the transport
reports a byte count other than 2 and returns 0 otherwise; either way, for an index below
the cache size, the cache entry at `index` holds the (16-bit) value afterwards and every
other entry is unchanged. -/
theorem write_result_and_cache (h0 : wm8950_h) (h6 : wm8956_h) (hw : hw_write_t)
    (c0 c6 : snd_soc_codec) (i j v : Nat) :
    (((wm8950_write h0 hw c0 i v).1 = - EIO ↔ hw c0.sent (wire_data i v) ≠ 2) ∧
     ((wm8950_write h0 hw c0 i v).1 = 0 ↔ hw c0.sent (wire_data i v) = 2) ∧
     ((wm8956_write h6 hw c6 j v).1 = - EIO ↔ hw c6.sent (wire_data j v) ≠ 2) ∧
     ((wm8956_write h6 hw c6 j v).1 = 0 ↔ hw c6.sent (wire_data j v) = 2)) ∧
    (v < 65536 → h0.CACHEREGNUM ≤ 65536 → c0.reg_cache.length = h0.CACHEREGNUM →
      i < h0.CACHEREGNUM →
      (wm8950_write h0 hw c0 i v).2.reg_cache.length = c0.reg_cache.length ∧
      ∀ r, (wm8950_write h0 hw c0 i v).2.reg_cache.getD r 0
        = if r = i then v else c0.reg_cache.getD r 0) ∧
    (v < 65536 → h6.CACHEREGNUM ≤ 65536 → c6.reg_cache.length = h6.CACHEREGNUM →
      j < h6.CACHEREGNUM →
      (wm8956_write h6 hw c6 j v).2.reg_cache.length = c6.reg_cache.length ∧
      ∀ r, (wm8956_write h6 hw c6 j v).2.reg_cache.getD r 0
        = if r = j then v else c6.reg_cache.getD r 0) := by
  have s0 : (wm8950_write_reg_cache h0 c0 (i % 65536) v).sent = c0.sent := by
    unfold wm8950_write_reg_cache; split <;> rfl
  have s6 : (wm8956_write_reg_cache h6 c6 (j % 65536) v).sent = c6.sent := by
    unfold wm8956_write_reg_cache; split <;> rfl
  refine ⟨⟨?_, ?_, ?_, ?_⟩, ?_, ?_⟩
  · unfold wm8950_write
    simp only [s0]
    by_cases hn : hw c0.sent (wire_data i v) = 2 <;> simp [hn, EIO]
  · unfold wm8950_write
    simp only [s0]
    by_cases hn : hw c0.sent (wire_data i v) = 2 <;> simp [hn, EIO]
  · unfold wm8956_write
    simp only [s6]
    by_cases hn : hw c6.sent (wire_data j v) = 2 <;> simp [hn, EIO]
  · unfold wm8956_write
    simp only [s6]
    by_cases hn : hw c6.sent (wire_data j v) = 2 <;> simp [hn, EIO]
  · intro hv hn0 hl0 hi
    have hvm : v % 65536 = v := Nat.mod_eq_of_lt hv
    refine ⟨by rw [wm8950_write_cache h0 hw c0 i v hi hn0, List.length_set], fun r => ?_⟩
    rw [wm8950_write_cache h0 hw c0 i v hi hn0, getD_set _ _ _ _ (by omega), hvm]
  · intro hv hn6 hl6 hj
    have hvm : v % 65536 = v := Nat.mod_eq_of_lt hv
    refine ⟨by rw [wm8956_write_cache h6 hw c6 j v hj hn6, List.length_set], fun r => ?_⟩
    rw [wm8956_write_cache h6 hw c6 j v hj hn6, getD_set _ _ _ _ (by omega), hvm]

/-- Witness of C3: a failing transport, the interface register of each chip. -/
theorem write_result_and_cache_witness :
    (wm8950_write wm8950_map hw_fail wm8950_codec0 4 0x1a5).1 = - EIO ∧
    (wm8950_write wm8950_map hw_fail wm8950_codec0 4 0x1a5).2.reg_cache.getD 4 0 = 0x1a5 ∧
    (wm8950_write wm8950_map hw_fail wm8950_codec0 4 0x1a5).2.reg_cache.getD 6 0 = 0x140 ∧
    (wm8956_write wm8956_map hw_fail wm8956_codec0 7 0x1a5).1 = - EIO ∧
    (wm8956_write wm8956_map hw_fail wm8956_codec0 7 0x1a5).2.reg_cache.getD 7 0 = 0x1a5 ∧
    (wm8956_write wm8956_map hw_fail wm8956_codec0 7 0x1a5).2.reg_cache.getD 8 0 = 0x1c0 :=
  have h := write_result_and_cache wm8950_map wm8956_map hw_fail wm8950_codec0
    wm8956_codec0 4 7 0x1a5
  have h0 := h.2.1 (by decide) (by decide) (by decide) (by decide)
  have h6 := h.2.2 (by decide) (by decide) (by decide) (by decide)
  ⟨h.1.1.mpr (by decide), (h0.2 4).trans (by decide), (h0.2 6).trans (by decide),
   h.1.2.2.1.mpr (by decide), (h6.2 7).trans (by decide), (h6.2 8).trans (by decide)⟩

/-- C4: in both drivers `read(index)` is a function of the codec state alone (it stores
nothing) and returns 0 for the reset register, the `unsigned int` value of `-1` for any
other index at or above the register count, and the cached entry otherwise. -/
theorem read_reg_cache_cases (h0 : wm8950_h) (h6 : wm8956_h) (c : snd_soc_codec)
    (reg : Nat) :
    (wm8950_read_reg_cache h0 c h0.RESET = 0 ∧
     (reg ≠ h0.RESET → h0.CACHEREGNUM ≤ reg →
       ((wm8950_read_reg_cache h0 c reg : Nat) : Int) = (-1) % 2 ^ 32) ∧
     (reg ≠ h0.RESET → reg < h0.CACHEREGNUM →
       wm8950_read_reg_cache h0 c reg = c.reg_cache.getD reg 0)) ∧
    (wm8956_read_reg_cache h6 c h6.RESET = 0 ∧
     (reg ≠ h6.RESET → h6.CACHEREGNUM ≤ reg →
       ((wm8956_read_reg_cache h6 c reg : Nat) : Int) = (-1) % 2 ^ 32) ∧
     (reg ≠ h6.RESET → reg < h6.CACHEREGNUM →
       wm8956_read_reg_cache h6 c reg = c.reg_cache.getD reg 0)) := by
  refine ⟨⟨?_, ?_, ?_⟩, ⟨?_, ?_, ?_⟩⟩
  · simp [wm8950_read_reg_cache]
  · intro h1 h2
    simp [wm8950_read_reg_cache, h1, h2]
  · intro h1 h2
    simp [wm8950_read_reg_cache, h1, Nat.not_le.mpr h2]
  · simp [wm8956_read_reg_cache]
  · intro h1 h2
    simp [wm8956_read_reg_cache, h1, h2]
  · intro h1 h2
    simp [wm8956_read_reg_cache, h1, Nat.not_le.mpr h2]

/-- Witness of C4: index 60 is out of range on both chips, index 6 and index 8 are cached. -/
theorem read_reg_cache_cases_witness :
    ((wm8950_read_reg_cache wm8950_map wm8950_codec0 60 : Nat) : Int) = (-1) % 2 ^ 32 ∧
    wm8950_read_reg_cache wm8950_map wm8950_codec0 6 = 0x140 ∧
    ((wm8956_read_reg_cache wm8956_map wm8956_codec0 60 : Nat) : Int) = (-1) % 2 ^ 32 ∧
    wm8956_read_reg_cache wm8956_map wm8956_codec0 8 = 0x1c0 :=
  ⟨(read_reg_cache_cases wm8950_map wm8956_map wm8950_codec0 60).1.2.1
      (by decide) (by decide),
   ((read_reg_cache_cases wm8950_map wm8956_map wm8950_codec0 6).1.2.2
      (by decide) (by decide)).trans (by decide),
   (read_reg_cache_cases wm8950_map wm8956_map wm8956_codec0 60).2.2.1
      (by decide) (by decide),
   ((read_reg_cache_cases wm8950_map wm8956_map wm8956_codec0 8).2.2.2
      (by decide) (by decide)).trans (by decide)⟩

/-! ## Computed PLL coefficients -/

theorem round_extra_digit (r s : Nat) (hs : 0 < s) :
    (if (167772160 * r / s) % 10 ≥ 5 then 167772160 * r / s + 5 else 167772160 * r / s) / 10
      = (2 * r * 2 ^ 24 + s) / (2 * s) := by
  have h1 : (if (167772160 * r / s) % 10 ≥ 5 then 167772160 * r / s + 5
      else 167772160 * r / s) / 10 = (167772160 * r / s + 5) / 10 := by
    split <;> omega
  have h2 : 167772160 * r / s + 5 = (167772160 * r + 5 * s) / s := by
    rw [Nat.add_mul_div_right _ _ hs]
  have h3 : 167772160 * r + 5 * s = 5 * (2 * r * 2 ^ 24 + s) := by ring
  have h4 : s * 10 = 5 * (2 * s) := by ring
  rw [h1, h2, Nat.div_div_eq_div_mul, h3, h4, Nat.mul_div_mul_left _ _ (by decide)]

theorem pll_source_pos (target source : Nat) (hs : 2 ≤ source) :
    0 < pll_source target source := by
  unfold pll_source
  split
  · rw [Nat.shiftRight_eq_div_pow]; omega
  · omega

theorem pll_source_le (target source : Nat) : pll_source target source ≤ source := by
  unfold pll_source
  split
  · rw [Nat.shiftRight_eq_div_pow]; omega
  · omega

theorem pll_factors_eq (target source : Nat) (hs : 2 ≤ source) (hs32 : source < 2 ^ 32) :
    pll_factors target source = some
      { pre_div := if target / source < 6 then 1 else 0
        n := (target / pll_source target source) % 16
        k := ((2 * (target % pll_source target source) * 2 ^ 24 + pll_source target source)
                / (2 * pll_source target source)) % 2 ^ 24 } := by
  have hpos := pll_source_pos target source hs
  have hle := pll_source_le target source
  have hne : source ≠ 0 := by omega
  have hne1 : pll_source target source ≠ 0 := by omega
  have hmod : target % pll_source target source < pll_source target source :=
    Nat.mod_lt _ hpos
  have hK : 167772160 * (target % pll_source target source) / pll_source target source
      < 167772160 := by
    apply Nat.div_lt_of_lt_mul
    omega
  have hF : FIXED_PLL_SIZE = 167772160 := by decide
  have hN : (if target / source < 6 then target / pll_source target source
      else target / source) = target / pll_source target source := by
    unfold pll_source
    split <;> rfl
  have hP : (if target / source < 6 then 1 else 0) % 2
      = if target / source < 6 then 1 else 0 := by
    split <;> rfl
  have h64 : (167772160 * (target % pll_source target source)) % 2 ^ 64
      = 167772160 * (target % pll_source target source) := by
    apply Nat.mod_eq_of_lt
    omega
  have hand : ∀ x, x < 167772160 → x &&& 0xFFFFFFFF = x := by
    intro x hx
    exact Nat.and_pow_two_sub_one_of_lt_two_pow (n := 32) (by omega)
  have h5 : ∀ x, x < 167772160 → (x + 5) % 2 ^ 32 = x + 5 := by
    intro x hx
    apply Nat.mod_eq_of_lt
    omega
  have e : (if target / source < 6 then source >>> 1 else source)
      = pll_source target source := rfl
  unfold pll_factors
  simp only [if_neg hne, e, if_neg hne1, hN, hP, hF, h64, hand _ hK, h5 _ hK,
    round_extra_digit _ _ hpos]

/-- C5: for a 32-bit `source >= 2`, `pll_factors` returns; `pre_div` is set exactly when
`target / source < 6`, and with `s1` the source halved in that case: the stored N is
`target / s1` reduced to 4 bits (so `target / s1` itself when it is at most 15), the
truncate to one extra decimal digit, add 5 when the last digit is at least 5, divide by 10
procedure equals `floor((2 * (target mod s1) * 2^24 + s1) / (2 * s1))`, and the stored
K is that number reduced to 24 bits. -/
theorem pll_factors_steps (target source : Nat) (hs : 2 ≤ source) (hs32 : source < 2 ^ 32) :
    ∃ d, pll_factors target source = some d ∧
      (d.pre_div = 1 ↔ target / source < 6) ∧
      (d.pre_div = 0 ↔ ¬ target / source < 6) ∧
      pll_source target source = (if target / source < 6 then source >>> 1 else source) ∧
      d.n = target / pll_source target source % 16 ∧
      (target / pll_source target source ≤ 15 → d.n = target / pll_source target source) ∧
      ((if ((1 <<< 24) * 10 * (target % pll_source target source)
              / pll_source target source) % 10 ≥ 5
          then (1 <<< 24) * 10 * (target % pll_source target source)
              / pll_source target source + 5
          else (1 <<< 24) * 10 * (target % pll_source target source)
              / pll_source target source) / 10
        = (2 * (target % pll_source target source) * 2 ^ 24 + pll_source target source)
            / (2 * pll_source target source)) ∧
      d.k = ((2 * (target % pll_source target source) * 2 ^ 24 + pll_source target source)
              / (2 * pll_source target source)) % 2 ^ 24 := by
  refine ⟨_, pll_factors_eq target source hs hs32, ?_, ?_, rfl, rfl, ?_, ?_, rfl⟩
  · by_cases hc : target / source < 6 <;> simp [hc]
  · by_cases hc : target / source < 6 <;> simp [hc]
  · intro h15
    exact Nat.mod_eq_of_lt (by omega)
  · have hF : (1 <<< 24) * 10 = 167772160 := by decide
    rw [hF]
    exact round_extra_digit _ _ (pll_source_pos target source hs)

/-- Witness of C5: a 12 MHz reference and eight times 12.288 MHz. -/
theorem pll_factors_steps_witness :
    ∃ d, pll_factors 98304000 12000000 = some d ∧ d.pre_div = 0 ∧ d.n = 8 ∧
      d.k = 0x3126e9 := by
  obtain ⟨d, hd, _, h0, _, hn, _, _, hk⟩ :=
    pll_factors_steps 98304000 12000000 (by decide) (by decide)
  refine ⟨d, hd, h0.mpr (by decide), hn.trans (by decide), hk.trans ?_⟩
  decide

theorem pll_factors_invariant_of_no_carry (target source : Nat) (hs : 2 ≤ source)
    (hs32 : source < 2 ^ 32) (hN : target / pll_source target source ≤ 15)
    (hK : (2 * (target % pll_source target source) * 2 ^ 24 + pll_source target source)
            / (2 * pll_source target source) < 2 ^ 24) :
    ∃ d, pll_factors target source = some d ∧
      Int.natAbs ((target : Int) * 2 ^ 25
          - (pll_source target source : Int) * ((d.n : Int) * 2 ^ 25 + 2 * (d.k : Int)))
        ≤ pll_source target source := by
  refine ⟨_, pll_factors_eq target source hs hs32, ?_⟩
  have hpos := pll_source_pos target source hs
  generalize pll_source target source = s at *
  simp only []
  rw [Nat.mod_eq_of_lt (show target / s < 16 by omega), Nat.mod_eq_of_lt hK]
  have e1 : (target : Int) = s * ((target / s : Nat) : Int) + ((target % s : Nat) : Int) := by
    exact_mod_cast (Nat.div_add_mod target s).symm
  have e2 : (2 * ((target % s : Nat) : Int) * 2 ^ 24 + s : Int)
      = 2 * s * (((2 * (target % s) * 2 ^ 24 + s) / (2 * s) : Nat) : Int)
        + (((2 * (target % s) * 2 ^ 24 + s) % (2 * s) : Nat) : Int) := by
    exact_mod_cast (Nat.div_add_mod (2 * (target % s) * 2 ^ 24 + s) (2 * s)).symm
  have hm : (2 * (target % s) * 2 ^ 24 + s) % (2 * s) < 2 * s :=
    Nat.mod_lt _ (by omega)
  have key : (target : Int) * 2 ^ 25
      - (s : Int) * (((target / s : Nat) : Int) * 2 ^ 25
          + 2 * (((2 * (target % s) * 2 ^ 24 + s) / (2 * s) : Nat) : Int))
      = (((2 * (target % s) * 2 ^ 24 + s) % (2 * s) : Nat) : Int) - s := by
    linear_combination (2 ^ 25 : Int) * e1 + e2
  rw [key]
  omega

/-- C6: at `freq_in = 33554439`, `freq_out = 29360134` (target `freq_out * 8`) the
computed N is 6, inside the recommended range, the fraction rounds up to `2^24`, the
24-bit field keeps 0, and the stored coefficients miss the target by more than `s1`:
the invariant `|target * 2^25 - s1 * (N * 2^25 + 2 * K)| <= s1` fails. -/
theorem pll_factors_carry_lost :
    pll_factors (29360134 * 8 % 2 ^ 32) 33554439 = some ⟨0, 6, 0⟩ ∧
    pll_source (29360134 * 8 % 2 ^ 32) 33554439 = 33554439 ∧
    (2 * (234881072 % 33554439) * 2 ^ 24 + 33554439) / (2 * 33554439) = 2 ^ 24 ∧
    ¬ (Int.natAbs ((234881072 : Int) * 2 ^ 25 - 33554439 * (6 * 2 ^ 25 + 2 * 0))
        ≤ 33554439) := by
  refine ⟨by decide, by decide, by decide, by decide⟩

/-- C7, as stated, fails: for the row `{12000000, 12288000, 0, 8, 0x3126e8}` the computed
K is `0x3126e9`, one unit of `2^-24` away from the table, which is more than one part in
`2^25`; so not every row is reproduced within that tolerance. -/
theorem pll_table_not_within_tolerance :
    ¬ ∀ row ∈ pll, ∃ d, pll_factors (row.out_hz * 8 % 2 ^ 32) row.in_hz = some d ∧
        d.pre_div = row.pre ∧ d.n = row.n ∧
        Int.natAbs ((d.k : Int) - (row.k : Int)) * 2 ^ 25 ≤ 2 ^ 24 := by
  intro hall
  obtain ⟨d, hd, -, -, hk⟩ := hall ⟨12000000, 12288000, 0, 8, 0x3126e8⟩ (by decide)
  have e : pll_factors (12288000 * 8 % 2 ^ 32) 12000000 = some ⟨0, 8, 0x3126e9⟩ := by decide
  have hd2 : d = ⟨0, 8, 0x3126e9⟩ := Option.some.inj (hd.symm.trans e)
  subst hd2
  revert hk
  decide

/-- C7, amended: for every row of the table `pll_factors (out_hz * 8) in_hz` returns
`pre_div = pre` and `N = n`; its K equals the table's `k` for the row with
`in_hz = 12288000`, and for every row with `in_hz` other than 11289600 it lies between
`k` and `k + 7`. -/
theorem pll_factors_vs_table :
    ∀ row ∈ pll, ∃ d, pll_factors (row.out_hz * 8 % 2 ^ 32) row.in_hz = some d ∧
      d.pre_div = row.pre ∧ d.n = row.n ∧
      (row.in_hz = 12288000 → d.k = row.k) ∧
      (row.in_hz ≠ 11289600 → row.k ≤ d.k ∧ d.k ≤ row.k + 7) := by
  intro row hrow
  simp only [pll, List.mem_cons, List.mem_singleton, List.not_mem_nil, or_false] at hrow
  rcases hrow with rfl | rfl | rfl | rfl | rfl | rfl
  · exact ⟨⟨0, 7, 8831527⟩, by decide, rfl, rfl, by decide, by decide⟩
  · exact ⟨⟨0, 8, 3221225⟩, by decide, rfl, rfl, by decide, by decide⟩
  · exact ⟨⟨0, 6, 15895509⟩, by decide, rfl, rfl, by decide, by decide⟩
  · exact ⟨⟨0, 7, 9426214⟩, by decide, rfl, rfl, by decide, by decide⟩
  · exact ⟨⟨0, 7, 5872026⟩, by decide, rfl, rfl, by decide, by decide⟩
  · exact ⟨⟨0, 8, 11869595⟩, by decide, rfl, rfl, by decide, by decide⟩

/-- Witness of the amended C7: the row for a 12 MHz input and a 12.288 MHz output. -/
theorem pll_factors_vs_table_witness :
    ∃ d, pll_factors (12288000 * 8 % 2 ^ 32) 12000000 = some d ∧
      d.pre_div = 0 ∧ d.n = 8 ∧ 0x3126e8 ≤ d.k ∧ d.k ≤ 0x3126e8 + 7 := by
  obtain ⟨d, hd, hp, hn, _, hk⟩ :=
    pll_factors_vs_table ⟨12000000, 12288000, 0, 8, 0x3126e8⟩ (by decide)
  exact ⟨d, hd, hp, hn, hk (by decide)⟩

/-! ## Tabulated PLL coefficients -/

theorem wm8950_set_dai_pll_loop_none (h : wm8950_h) (hw : hw_write_t) (c : snd_soc_codec)
    (freq_in freq_out : Nat) (rows : List pll_)
    (hno : ¬ ∃ row ∈ rows, freq_in = row.in_hz ∧ freq_out = row.out_hz) :
    wm8950_set_dai_pll_loop h hw c freq_in freq_out rows = (- EINVAL, c) := by
  induction rows with
  | nil => rfl
  | cons row rest ih =>
    unfold wm8950_set_dai_pll_loop
    have h1 : ¬ (freq_in = row.in_hz ∧ freq_out = row.out_hz) :=
      fun hm => hno ⟨row, List.mem_cons_self _ _, hm⟩
    rw [if_neg h1]
    exact ih (fun ⟨r, hr, hm⟩ => hno ⟨r, List.mem_cons_of_mem _ hr, hm⟩)

theorem wm8950_set_dai_pll_loop_some (h : wm8950_h) (hw : hw_write_t) (c : snd_soc_codec)
    (freq_in freq_out : Nat) (rows : List pll_)
    (hyes : ∃ row ∈ rows, freq_in = row.in_hz ∧ freq_out = row.out_hz) :
    (wm8950_set_dai_pll_loop h hw c freq_in freq_out rows).1 = 0 := by
  induction rows with
  | nil =>
    obtain ⟨r, hr, _⟩ := hyes
    exact absurd hr (List.not_mem_nil r)
  | cons row rest ih =>
    unfold wm8950_set_dai_pll_loop
    by_cases h1 : freq_in = row.in_hz ∧ freq_out = row.out_hz
    · rw [if_pos h1]
    · rw [if_neg h1]
      obtain ⟨r, hr, hm⟩ := hyes
      rcases List.mem_cons.mp hr with rfl | hr2
      · exact absurd hm h1
      · exact ih ⟨r, hr2, hm⟩

/-- C8: for non-zero frequencies `wm8950_set_dai_pll` returns `-EINVAL` exactly when no
row of the table has `in_hz = freq_in` and `out_hz = freq_out`, and then the codec state
(register cache and frames sent to the bus) is what it was before the call. -/
theorem wm8950_set_dai_pll_einval (h : wm8950_h) (hw : hw_write_t) (c : snd_soc_codec)
    (freq_in freq_out : Nat) (hin : freq_in ≠ 0) (hout : freq_out ≠ 0) :
    ((wm8950_set_dai_pll h hw c freq_in freq_out).1 = - EINVAL ↔
        ¬ ∃ row ∈ pll, freq_in = row.in_hz ∧ freq_out = row.out_hz) ∧
    ((wm8950_set_dai_pll h hw c freq_in freq_out).1 = - EINVAL →
        (wm8950_set_dai_pll h hw c freq_in freq_out).2.sent = c.sent ∧
        (wm8950_set_dai_pll h hw c freq_in freq_out).2.reg_cache = c.reg_cache ∧
        (wm8950_set_dai_pll h hw c freq_in freq_out).2 = c) := by
  have hz : ¬ (freq_in = 0 ∨ freq_out = 0) := by
    rintro (h0 | h0)
    · exact hin h0
    · exact hout h0
  have e : wm8950_set_dai_pll h hw c freq_in freq_out
      = wm8950_set_dai_pll_loop h hw c freq_in freq_out pll := by
    unfold wm8950_set_dai_pll
    rw [if_neg hz]
  rw [e]
  have hiff : (wm8950_set_dai_pll_loop h hw c freq_in freq_out pll).1 = - EINVAL ↔
      ¬ ∃ row ∈ pll, freq_in = row.in_hz ∧ freq_out = row.out_hz := by
    constructor
    · intro hr hyes
      rw [wm8950_set_dai_pll_loop_some h hw c freq_in freq_out pll hyes] at hr
      revert hr
      decide
    · intro hno
      rw [wm8950_set_dai_pll_loop_none h hw c freq_in freq_out pll hno]
  refine ⟨hiff, fun hr => ?_⟩
  rw [wm8950_set_dai_pll_loop_none h hw c freq_in freq_out pll (hiff.mp hr)]
  exact ⟨rfl, rfl, rfl⟩

/-- Witness of C8: 12 MHz in, 8 MHz out is not in the table. -/
theorem wm8950_set_dai_pll_einval_witness :
    (wm8950_set_dai_pll wm8950_map hw_ok wm8950_codec0 12000000 8000000).1 = - EINVAL ∧
    (wm8950_set_dai_pll wm8950_map hw_ok wm8950_codec0 12000000 8000000).2
      = wm8950_codec0 :=
  have h := wm8950_set_dai_pll_einval wm8950_map hw_ok wm8950_codec0 12000000 8000000
    (by decide) (by decide)
  have hr := h.1.mpr (by decide)
  ⟨hr, (h.2 hr).2.2⟩

/-- C9: `wm8956_set_dai_pll` with `freq_in = 0` (in particular `setPLL(0, 0)`) does not
complete: `pll_factors` divides by the zero source. -/
theorem wm8956_set_dai_pll_zero_faults (h : wm8956_h) (hw : hw_write_t)
    (c : snd_soc_codec) (freq_out : Nat) :
    wm8956_set_dai_pll h hw c 0 0 = none ∧ wm8956_set_dai_pll h hw c 0 freq_out = none := by
  constructor <;> rfl

/-- C10: `wm8956_set_dai_pll` never writes a register: whenever `pll_factors` returns,
the call returns `-EINVAL` with the codec state untouched, because `found` stays 0. -/
theorem wm8956_set_dai_pll_always_einval (h : wm8956_h) (hw : hw_write_t)
    (c : snd_soc_codec) (freq_in freq_out : Nat) :
    wm8956_set_dai_pll h hw c freq_in freq_out
      = (pll_factors (freq_out * 8 % 2 ^ 32) freq_in).map (fun d => (- EINVAL, d, c)) ∧
    wm8956_set_dai_pll wm8956_map hw_ok wm8956_codec0 12000000 12288000
      = some (- EINVAL, ⟨0, 8, 0x3126e9⟩, wm8956_codec0) := by
  constructor
  · unfold wm8956_set_dai_pll
    cases pll_factors (freq_out * 8 % 2 ^ 32) freq_in <;> rfl
  · decide

/-! ## Disabling the PLL on the wm8950 -/

theorem testBit_0x1df (b : Nat) : (0x1df : Nat).testBit b = decide (b ≤ 8 ∧ b ≠ 5) := by
  by_cases hb : b < 9
  · interval_cases b <;> rfl
  · have h1 : (0x1df : Nat) < 2 ^ b :=
      Nat.lt_of_lt_of_le (by decide : (0x1df : Nat) < 2 ^ 9)
        (Nat.pow_le_pow_right (by decide) (by omega))
    rw [Nat.testBit_lt_two_pow h1]
    simp
    omega

/-- On the wm8950, `wm8950_set_dai_pll` with both frequencies 0 returns 0 and
issues the single write of `POWER1` with its cached value `& 0x1df`, which clears bit 5
and keeps each of the other bits 0..8; every other cache entry is unchanged. -/
theorem wm8950_set_dai_pll_disable (h : wm8950_h) (hw : hw_write_t) (c : snd_soc_codec)
    (hn : h.CACHEREGNUM ≤ 65536) (hl : c.reg_cache.length = h.CACHEREGNUM)
    (hp : h.POWER1 < h.CACHEREGNUM) (hr : h.POWER1 ≠ h.RESET) :
    (wm8950_set_dai_pll h hw c 0 0).1 = 0 ∧
    (wm8950_set_dai_pll h hw c 0 0).2.sent
      = c.sent ++ [wire_data h.POWER1 (c.reg_cache.getD h.POWER1 0 % 65536 &&& 0x1df)] ∧
    (∀ r, (wm8950_set_dai_pll h hw c 0 0).2.reg_cache.getD r 0
      = if r = h.POWER1 then c.reg_cache.getD h.POWER1 0 % 65536 &&& 0x1df
        else c.reg_cache.getD r 0) ∧
    (∀ b, (c.reg_cache.getD h.POWER1 0 % 65536 &&& 0x1df).testBit b
      = ((c.reg_cache.getD h.POWER1 0).testBit b && decide (b ≤ 8 ∧ b ≠ 5))) := by
  have hread : wm8950_read_reg_cache h c h.POWER1 = c.reg_cache.getD h.POWER1 0 := by
    simp [wm8950_read_reg_cache, hr, Nat.not_le.mpr hp]
  have e : wm8950_set_dai_pll h hw c 0 0
      = (0, (wm8950_write h hw c h.POWER1
              (c.reg_cache.getD h.POWER1 0 % 65536 &&& 0x1df)).2) := by
    unfold wm8950_set_dai_pll
    simp [hread]
  have hlt : c.reg_cache.getD h.POWER1 0 % 65536 &&& 0x1df < 65536 :=
    Nat.lt_of_le_of_lt Nat.and_le_right (by decide)
  refine ⟨by rw [e], by rw [e, wm8950_write_snd], ?_, ?_⟩
  · intro r
    rw [e]
    show (wm8950_write h hw c h.POWER1 _).2.reg_cache.getD r 0 = _
    rw [wm8950_write_cache h hw c _ _ hp hn, getD_set _ _ _ _ (by omega),
      Nat.mod_eq_of_lt hlt]
  · intro b
    rw [Nat.testBit_and, testBit_0x1df]
    by_cases hb : b ≤ 8 ∧ b ≠ 5
    · have h16 : (c.reg_cache.getD h.POWER1 0 % 65536).testBit b
          = (c.reg_cache.getD h.POWER1 0).testBit b := by
        have := Nat.testBit_mod_two_pow (c.reg_cache.getD h.POWER1 0) 16 b
        simpa [show b < 16 by omega] using this
      rw [h16]
    · simp [hb]

/-! ## Format negotiation -/

theorem wm8950_fmt_master_none (s : sound_h) (fmt clk : Nat) :
    wm8950_fmt_master s fmt clk = none ↔ ¬ master_recognized s fmt := by
  unfold wm8950_fmt_master master_recognized
  split_ifs <;> simp [*]

theorem wm8950_fmt_format_none (s : sound_h) (fmt iface : Nat) :
    wm8950_fmt_format s fmt iface = none ↔ ¬ wm8950_format_recognized s fmt := by
  unfold wm8950_fmt_format wm8950_format_recognized
  split_ifs <;> simp [*]

theorem wm8950_fmt_inv_none (s : sound_h) (fmt iface : Nat) :
    wm8950_fmt_inv s fmt iface = none ↔ ¬ inv_recognized s fmt := by
  unfold wm8950_fmt_inv inv_recognized
  split_ifs <;> simp [*]

theorem wm8956_fmt_master_none (s : sound_h) (fmt iface : Nat) :
    wm8956_fmt_master s fmt iface = none ↔ ¬ master_recognized s fmt := by
  unfold wm8956_fmt_master master_recognized
  split_ifs <;> simp [*]

theorem wm8956_fmt_format_none (s : sound_h) (fmt iface : Nat) :
    wm8956_fmt_format s fmt iface = none ↔ ¬ wm8956_format_recognized s fmt := by
  unfold wm8956_fmt_format wm8956_format_recognized
  split_ifs <;> simp [*]

theorem wm8956_fmt_inv_none (s : sound_h) (fmt iface : Nat) :
    wm8956_fmt_inv s fmt iface = none ↔ ¬ inv_recognized s fmt := by
  unfold wm8956_fmt_inv inv_recognized
  split_ifs <;> simp [*]

theorem wm8950_set_dai_fmt_cases (h : wm8950_h) (s : sound_h) (hw : hw_write_t)
    (c : snd_soc_codec) (fmt : Nat) :
    (¬ (master_recognized s fmt ∧ wm8950_format_recognized s fmt ∧ inv_recognized s fmt) →
      wm8950_set_dai_fmt h s hw c fmt = (- EINVAL, c)) ∧
    ((master_recognized s fmt ∧ wm8950_format_recognized s fmt ∧ inv_recognized s fmt) →
      (wm8950_set_dai_fmt h s hw c fmt).1 = 0) := by
  unfold wm8950_set_dai_fmt
  simp only []
  by_cases rm : master_recognized s fmt
  · obtain ⟨clk, hm⟩ := Option.ne_none_iff_exists'.mp
      (fun e => (wm8950_fmt_master_none s fmt
        ((wm8950_read_reg_cache h c h.CLOCK &&& 0x1fe) % 65536)).mp e rm)
    by_cases rf : wm8950_format_recognized s fmt
    · obtain ⟨iface, hf⟩ := Option.ne_none_iff_exists'.mp
        (fun e => (wm8950_fmt_format_none s fmt 0).mp e rf)
      by_cases ri : inv_recognized s fmt
      · obtain ⟨iface2, hi⟩ := Option.ne_none_iff_exists'.mp
          (fun e => (wm8950_fmt_inv_none s fmt iface).mp e ri)
        refine ⟨fun hn => absurd ⟨rm, rf, ri⟩ hn, fun _ => ?_⟩
        simp only [hm, hf, hi]
      · have hi := (wm8950_fmt_inv_none s fmt iface).mpr ri
        refine ⟨fun _ => ?_, fun hr => absurd hr.2.2 ri⟩
        simp only [hm, hf, hi]
    · have hf := (wm8950_fmt_format_none s fmt 0).mpr rf
      refine ⟨fun _ => ?_, fun hr => absurd hr.2.1 rf⟩
      simp only [hm, hf]
  · have hm := (wm8950_fmt_master_none s fmt
      ((wm8950_read_reg_cache h c h.CLOCK &&& 0x1fe) % 65536)).mpr rm
    refine ⟨fun _ => ?_, fun hr => absurd hr.1 rm⟩
    simp only [hm]

theorem wm8956_set_dai_fmt_cases (h : wm8956_h) (s : sound_h) (hw : hw_write_t)
    (c : snd_soc_codec) (fmt : Nat) :
    (¬ (master_recognized s fmt ∧ wm8956_format_recognized s fmt ∧ inv_recognized s fmt) →
      wm8956_set_dai_fmt h s hw c fmt = (- EINVAL, c)) ∧
    ((master_recognized s fmt ∧ wm8956_format_recognized s fmt ∧ inv_recognized s fmt) →
      (wm8956_set_dai_fmt h s hw c fmt).1 = 0) := by
  unfold wm8956_set_dai_fmt
  simp only []
  by_cases rm : master_recognized s fmt
  · obtain ⟨iface1, hm⟩ := Option.ne_none_iff_exists'.mp
      (fun e => (wm8956_fmt_master_none s fmt 0).mp e rm)
    by_cases rf : wm8956_format_recognized s fmt
    · obtain ⟨iface, hf⟩ := Option.ne_none_iff_exists'.mp
        (fun e => (wm8956_fmt_format_none s fmt iface1).mp e rf)
      by_cases ri : inv_recognized s fmt
      · obtain ⟨iface2, hi⟩ := Option.ne_none_iff_exists'.mp
          (fun e => (wm8956_fmt_inv_none s fmt iface).mp e ri)
        refine ⟨fun hn => absurd ⟨rm, rf, ri⟩ hn, fun _ => ?_⟩
        simp only [hm, hf, hi]
      · have hi := (wm8956_fmt_inv_none s fmt iface).mpr ri
        refine ⟨fun _ => ?_, fun hr => absurd hr.2.2 ri⟩
        simp only [hm, hf, hi]
    · have hf := (wm8956_fmt_format_none s fmt iface1).mpr rf
      refine ⟨fun _ => ?_, fun hr => absurd hr.2.1 rf⟩
      simp only [hm, hf]
  · have hm := (wm8956_fmt_master_none s fmt 0).mpr rm
    refine ⟨fun _ => ?_, fun hr => absurd hr.1 rm⟩
    simp only [hm]

/-- C11: in both drivers `set_dai_fmt` is all-or-nothing: when the master/slave field,
the interface-format field or the clock-inversion field of `fmt` is not a recognized
value the call returns `-EINVAL` and the codec (register cache and frames sent to the
bus) is what it was before; when all three fields are recognized it returns 0; so it
returns `-EINVAL` exactly for the unrecognized words. -/
theorem set_dai_fmt_all_or_nothing (h0 : wm8950_h) (h6 : wm8956_h) (s : sound_h)
    (hw : hw_write_t) (c : snd_soc_codec) (fmt : Nat) :
    ((¬ (master_recognized s fmt ∧ wm8950_format_recognized s fmt ∧ inv_recognized s fmt) →
        (wm8950_set_dai_fmt h0 s hw c fmt).1 = - EINVAL ∧
        (wm8950_set_dai_fmt h0 s hw c fmt).2.sent = c.sent ∧
        (wm8950_set_dai_fmt h0 s hw c fmt).2.reg_cache = c.reg_cache ∧
        (wm8950_set_dai_fmt h0 s hw c fmt).2 = c) ∧
     ((master_recognized s fmt ∧ wm8950_format_recognized s fmt ∧ inv_recognized s fmt) →
        (wm8950_set_dai_fmt h0 s hw c fmt).1 = 0) ∧
     ((wm8950_set_dai_fmt h0 s hw c fmt).1 = - EINVAL ↔
        ¬ (master_recognized s fmt ∧ wm8950_format_recognized s fmt ∧
            inv_recognized s fmt))) ∧
    ((¬ (master_recognized s fmt ∧ wm8956_format_recognized s fmt ∧ inv_recognized s fmt) →
        (wm8956_set_dai_fmt h6 s hw c fmt).1 = - EINVAL ∧
        (wm8956_set_dai_fmt h6 s hw c fmt).2.sent = c.sent ∧
        (wm8956_set_dai_fmt h6 s hw c fmt).2.reg_cache = c.reg_cache ∧
        (wm8956_set_dai_fmt h6 s hw c fmt).2 = c) ∧
     ((master_recognized s fmt ∧ wm8956_format_recognized s fmt ∧ inv_recognized s fmt) →
        (wm8956_set_dai_fmt h6 s hw c fmt).1 = 0) ∧
     ((wm8956_set_dai_fmt h6 s hw c fmt).1 = - EINVAL ↔
        ¬ (master_recognized s fmt ∧ wm8956_format_recognized s fmt ∧
            inv_recognized s fmt))) := by
  have a := wm8950_set_dai_fmt_cases h0 s hw c fmt
  have b := wm8956_set_dai_fmt_cases h6 s hw c fmt
  have ne : (0 : Int) ≠ - EINVAL := by decide
  refine ⟨⟨fun hn => ?_, a.2, ⟨fun hr => ?_, fun hn => ?_⟩⟩,
    ⟨fun hn => ?_, b.2, ⟨fun hr => ?_, fun hn => ?_⟩⟩⟩
  · rw [a.1 hn]; exact ⟨rfl, rfl, rfl, rfl⟩
  · intro hrec
    rw [a.2 hrec] at hr
    exact ne hr
  · rw [a.1 hn]
  · rw [b.1 hn]; exact ⟨rfl, rfl, rfl, rfl⟩
  · intro hrec
    rw [b.2 hrec] at hr
    exact ne hr
  · rw [b.1 hn]

/-- Witness of C11: the word 0x3004 (slave, DSP mode B, normal clocks) is rejected by
the wm8950 and leaves its codec alone; the wm8956 accepts it. -/
theorem set_dai_fmt_all_or_nothing_witness :
    (wm8950_set_dai_fmt wm8950_map sound_map hw_ok wm8950_codec0 0x3004).1 = - EINVAL ∧
    (wm8950_set_dai_fmt wm8950_map sound_map hw_ok wm8950_codec0 0x3004).2 = wm8950_codec0 ∧
    (wm8956_set_dai_fmt wm8956_map sound_map hw_ok wm8950_codec0 0x3004).1 = 0 :=
  have h := set_dai_fmt_all_or_nothing wm8950_map wm8956_map sound_map hw_ok
    wm8950_codec0 0x3004
  have h0 := h.1.1 (by decide)
  ⟨h0.1, h0.2.2.2, h.2.2.1 (by decide)⟩


/-! ## Clock dividers -/

/-- C12: `wm8950_set_dai_clkdiv` applies each mask to the register number inside the
read, not to the value read. From the reset defaults (`CLOCK` holds 0x140) on the sample
register map: MCLKDIV with code 0x40 writes 0x140 where the masked merge is 0x40; BCLKDIV
with code 0x4 reads register `6 & 0x1e3 = 2` and writes 0x4 where the merge is 0x144;
ADCCLK with code 0x8 reads register `0xe & 0x1f7 = 6` and writes 0x148 to `ADC` where the
merge is 0x108; OPCLKDIV with code 0x10 on a `GPIO` holding 0x30 writes 0x30 where the
merge is 0x10; an unknown domain returns `-EINVAL` and writes nothing. -/
theorem wm8950_set_dai_clkdiv_masks_register_number :
    (wm8950_set_dai_clkdiv wm8950_map hw_ok wm8950_codec0 wm8950_map.MCLKDIV 0x40)
        = (0, (wm8950_write wm8950_map hw_ok wm8950_codec0 wm8950_map.CLOCK 0x140).2) ∧
    (wm8950_codec0.reg_cache.getD wm8950_map.CLOCK 0 &&& 0x1f) ||| 0x40 = 0x40 ∧
    (wm8950_set_dai_clkdiv wm8950_map hw_ok wm8950_codec0 wm8950_map.BCLKDIV 0x4)
        = (0, (wm8950_write wm8950_map hw_ok wm8950_codec0 wm8950_map.CLOCK 0x4).2) ∧
    (wm8950_codec0.reg_cache.getD wm8950_map.CLOCK 0 &&& 0x1e3) ||| 0x4 = 0x144 ∧
    (wm8950_set_dai_clkdiv wm8950_map hw_ok wm8950_codec0 wm8950_map.ADCCLK 0x8)
        = (0, (wm8950_write wm8950_map hw_ok wm8950_codec0 wm8950_map.ADC 0x148).2) ∧
    (wm8950_codec0.reg_cache.getD wm8950_map.ADC 0 &&& 0x1f7) ||| 0x8 = 0x108 ∧
    (wm8950_set_dai_clkdiv wm8950_map hw_ok
        (wm8950_write wm8950_map hw_ok wm8950_codec0 ( wm8950_h.GPIO wm8950_map) 0x30).2
        wm8950_map.OPCLKDIV 0x10).2.reg_cache.getD ( wm8950_h.GPIO wm8950_map) 0 = 0x30 ∧
    (0x30 &&& 0x1cf) ||| 0x10 = 0x10 ∧
    (wm8950_set_dai_clkdiv wm8950_map hw_ok wm8950_codec0 9 0x8)
        = (- EINVAL, wm8950_codec0) := by
  refine ⟨by decide, by decide, by decide, by decide, by decide, by decide, by decide,
    by decide, by decide⟩

theorem testBit_mask9 (m lo w : Nat) (hm : m < 2 ^ 9)
    (hb : ∀ b < 9, m.testBit b = decide (¬ in_field lo w b)) (b : Nat) :
    m.testBit b = decide (b ≤ 8 ∧ ¬ in_field lo w b) := by
  by_cases h9 : b < 9
  · rw [hb b h9]
    have : b ≤ 8 := by omega
    simp [this]
  · have h1 : m < 2 ^ b :=
      Nat.lt_of_lt_of_le hm (Nat.pow_le_pow_right (by decide) (by omega))
    rw [Nat.testBit_lt_two_pow h1]
    have : ¬ b ≤ 8 := by omega
    simp [this]

theorem lt_512_of_confined (div lo w : Nat) (hlw : lo + w ≤ 9)
    (hdiv : ∀ b, div.testBit b = true → in_field lo w b) : div < 2 ^ 9 := by
  apply Nat.lt_pow_two_of_testBit
  intro i hi
  by_contra hne
  have ht : div.testBit i = true := by
    cases hx : div.testBit i
    · exact absurd hx hne
    · rfl
  have := hdiv i ht
  unfold in_field at this
  omega

theorem rmw_testBit (x m div lo w : Nat) (hm : m < 2 ^ 9)
    (hmb : ∀ b < 9, m.testBit b = decide (¬ in_field lo w b))
    (hdiv : ∀ b, div.testBit b = true → in_field lo w b) (b : Nat) :
    (((x &&& m) % 65536) ||| div).testBit b
      = if in_field lo w b then div.testBit b else (x.testBit b && decide (b ≤ 8)) := by
  have hlt : x &&& m < 65536 :=
    Nat.lt_of_le_of_lt Nat.and_le_right (Nat.lt_of_lt_of_le hm (by decide))
  rw [Nat.mod_eq_of_lt hlt, Nat.testBit_or, Nat.testBit_and, testBit_mask9 m lo w hm hmb b]
  by_cases hf : in_field lo w b
  · rw [if_pos hf]
    simp [hf]
  · have hd : div.testBit b = false := by
      cases hx : div.testBit b
      · rfl
      · exact absurd (hdiv b hx) hf
    rw [if_neg hf]
    simp [hf, hd]

theorem rmw_lt (x m div lo w : Nat) (hlw : lo + w ≤ 9)
    (hdiv : ∀ b, div.testBit b = true → in_field lo w b) :
    ((x &&& m) % 65536) ||| div < 65536 := by
  have h1 : (x &&& m) % 65536 < 2 ^ 16 := Nat.mod_lt _ (by decide)
  have h2 : div < 2 ^ 16 :=
    Nat.lt_of_lt_of_le (lt_512_of_confined div lo w hlw hdiv) (by decide)
  exact Nat.or_lt_two_pow h1 h2

theorem wm8956_read_cached (h : wm8956_h) (c : snd_soc_codec) (reg : Nat)
    (hr : reg < h.CACHEREGNUM) (hne : reg ≠ h.RESET) :
    wm8956_read_reg_cache h c reg = c.reg_cache.getD reg 0 := by
  simp [wm8956_read_reg_cache, hne, Nat.not_le.mpr hr]

theorem wm8950_read_cached (h : wm8950_h) (c : snd_soc_codec) (reg : Nat)
    (hr : reg < h.CACHEREGNUM) (hne : reg ≠ h.RESET) :
    wm8950_read_reg_cache h c reg = c.reg_cache.getD reg 0 := by
  simp [wm8950_read_reg_cache, hne, Nat.not_le.mpr hr]

/-- What one read-modify-write of the wm8956 does: the value read, masked, OR-ed with the
code and written back to the same register. -/
theorem wm8956_rmw (h : wm8956_h) (hw : hw_write_t) (c : snd_soc_codec)
    (reg m div lo w : Nat) (hn : h.CACHEREGNUM ≤ 65536)
    (hl : c.reg_cache.length = h.CACHEREGNUM) (hr : reg < h.CACHEREGNUM)
    (hne : reg ≠ h.RESET) (hm : m < 2 ^ 9)
    (hmb : ∀ b < 9, m.testBit b = decide (¬ in_field lo w b)) (hlw : lo + w ≤ 9)
    (hdiv : ∀ b, div.testBit b = true → in_field lo w b) :
    ∃ v, (wm8956_write h hw c reg
            (((wm8956_read_reg_cache h c reg &&& m) % 65536) ||| div)).2
          = { c with reg_cache := c.reg_cache.set reg v,
                     sent := c.sent ++ [wire_data reg v] } ∧
      (∀ b, v.testBit b = if in_field lo w b then div.testBit b
          else ((c.reg_cache.getD reg 0).testBit b && decide (b ≤ 8))) := by
  refine ⟨((c.reg_cache.getD reg 0 &&& m) % 65536) ||| div, ?_, ?_⟩
  · have hm16 : reg % 65536 = reg := Nat.mod_eq_of_lt (by omega)
    rw [wm8956_read_cached h c reg hr hne, wm8956_write_snd, hm16]
    unfold wm8956_write_reg_cache
    rw [if_neg (Nat.not_le.mpr hr),
      Nat.mod_eq_of_lt (rmw_lt (c.reg_cache.getD reg 0) m div lo w hlw hdiv)]
  · exact rmw_testBit _ m div lo w hm hmb hdiv

theorem wm8956_clkdiv_case (h : wm8956_h) (hw : hw_write_t) (c : snd_soc_codec)
    (reg m div lo w : Nat) (hv : h.valid) (hl : c.reg_cache.length = h.CACHEREGNUM)
    (hreg : reg ∈ h.regs) (hm : m < 2 ^ 9)
    (hmb : ∀ b < 9, m.testBit b = decide (¬ in_field lo w b)) (hlw : lo + w ≤ 9)
    (hdiv : ∀ b, div.testBit b = true → in_field lo w b) (X : Int × snd_soc_codec)
    (hX : X = (0, (wm8956_write h hw c reg
            (((wm8956_read_reg_cache h c reg &&& m) % 65536) ||| div)).2)) :
    ∃ v, X = (0, { c with reg_cache := c.reg_cache.set reg v,
                          sent := c.sent ++ [wire_data reg v] }) ∧
      (∀ b, v.testBit b = if in_field lo w b then div.testBit b
          else ((c.reg_cache.getD reg 0).testBit b && decide (b ≤ 8))) ∧
      (c.reg_cache.getD reg 0 < 0x200 →
        ∀ b, v.testBit b = if in_field lo w b then div.testBit b
          else (c.reg_cache.getD reg 0).testBit b) ∧
      (∀ r, (c.reg_cache.set reg v).getD r 0
          = if r = reg then v else c.reg_cache.getD r 0) := by
  have hr := hv.2.1 reg hreg
  obtain ⟨v, hv1, hv2⟩ := wm8956_rmw h hw c reg m div lo w hv.1 hl hr.1 hr.2 hm hmb hlw hdiv
  refine ⟨v, by rw [hX, hv1], hv2, fun h9 b => ?_, fun r => ?_⟩
  · rw [hv2 b]
    by_cases hf : in_field lo w b
    · rw [if_pos hf, if_pos hf]
    · rw [if_neg hf, if_neg hf]
      by_cases hb : b ≤ 8
      · simp [hb]
      · have h9b : c.reg_cache.getD reg 0 < 2 ^ 9 := h9
        have hle : 2 ^ 9 ≤ 2 ^ b := Nat.pow_le_pow_right (by decide) (by omega)
        have h1 : c.reg_cache.getD reg 0 < 2 ^ b := Nat.lt_of_lt_of_le h9b hle
        rw [Nat.testBit_lt_two_pow h1]
        rfl
  · exact getD_set _ _ _ _ (by omega)

/-- C13: `wm8956_set_dai_clkdiv` is a read-modify-write of the owning register. For each
domain (SYSCLKSEL bit 0, SYSCLKDIV bits 1..2 and DACDIV bits 3..5 of `CLOCK1`, OPCLKDIV
bits 6..8 of `PLLN`, DCLKDIV bits 6..8 of `CLOCK2`, TOCLKSEL bit 1 of `ADDCTL1`) and every
code confined to the field, the call returns 0 and issues one write, of the owning
register, with a value `v` whose field bits are the code's and whose other bits 0..8 are
the cached ones (all other bits, when the cached value is a 9-bit register value); no
other cache entry changes. An unknown domain returns `-EINVAL` and changes nothing. -/
theorem wm8956_set_dai_clkdiv_rmw (h : wm8956_h) (hw : hw_write_t) (c : snd_soc_codec)
    (div : Nat) (hv : h.valid) (hl : c.reg_cache.length = h.CACHEREGNUM) :
    (∀ id reg lo w, (id, reg, lo, w) ∈ wm8956_clkdiv_fields h →
      (∀ b, div.testBit b = true → in_field lo w b) →
      ∃ v, wm8956_set_dai_clkdiv h hw c id div
            = (0, { c with reg_cache := c.reg_cache.set reg v,
                           sent := c.sent ++ [wire_data reg v] }) ∧
        (∀ b, v.testBit b = if in_field lo w b then div.testBit b
            else ((c.reg_cache.getD reg 0).testBit b && decide (b ≤ 8))) ∧
        (c.reg_cache.getD reg 0 < 0x200 →
          ∀ b, v.testBit b = if in_field lo w b then div.testBit b
            else (c.reg_cache.getD reg 0).testBit b) ∧
        (∀ r, (c.reg_cache.set reg v).getD r 0
            = if r = reg then v else c.reg_cache.getD r 0)) ∧
    (∀ div_id, div_id ∉ (wm8956_clkdiv_fields h).map Prod.fst →
      wm8956_set_dai_clkdiv h hw c div_id div = (- EINVAL, c)) := by
  have hid := hv.2.2.2
  simp only [List.nodup_cons, List.mem_cons, List.mem_singleton, List.not_mem_nil,
    not_or, or_false, List.nodup_nil, and_true, not_false_eq_true] at hid
  obtain ⟨⟨a1, a2, a3, a4, a5⟩, ⟨b2, b3, b4, b5⟩, ⟨c3, c4, c5⟩, ⟨d4, d5⟩, e5⟩ := hid
  constructor
  · intro id reg lo w hmem hdiv
    simp only [wm8956_clkdiv_fields, List.mem_cons, List.mem_singleton, List.not_mem_nil,
      or_false, Prod.mk.injEq] at hmem
    rcases hmem with ⟨rfl, rfl, rfl, rfl⟩ | ⟨rfl, rfl, rfl, rfl⟩ | ⟨rfl, rfl, rfl, rfl⟩ |
      ⟨rfl, rfl, rfl, rfl⟩ | ⟨rfl, rfl, rfl, rfl⟩ | ⟨rfl, rfl, rfl, rfl⟩
    · exact wm8956_clkdiv_case h hw c h.CLOCK1 0x1fe div 0 1 hv hl
        (by simp [wm8956_h.regs]) (by decide) (by decide) (by decide) hdiv _
        (by unfold wm8956_set_dai_clkdiv; rw [if_pos rfl])
    · exact wm8956_clkdiv_case h hw c h.CLOCK1 0x1f9 div 1 2 hv hl
        (by simp [wm8956_h.regs]) (by decide) (by decide) (by decide) hdiv _
        (by unfold wm8956_set_dai_clkdiv; rw [if_neg (Ne.symm a1), if_pos rfl])
    · exact wm8956_clkdiv_case h hw c h.CLOCK1 0x1c7 div 3 3 hv hl
        (by simp [wm8956_h.regs]) (by decide) (by decide) (by decide) hdiv _
        (by unfold wm8956_set_dai_clkdiv
            rw [if_neg (Ne.symm a2), if_neg (Ne.symm b2), if_pos rfl])
    · exact wm8956_clkdiv_case h hw c h.PLLN 0x03f div 6 3 hv hl
        (by simp [wm8956_h.regs]) (by decide) (by decide) (by decide) hdiv _
        (by unfold wm8956_set_dai_clkdiv
            rw [if_neg (Ne.symm a3), if_neg (Ne.symm b3), if_neg (Ne.symm c3), if_pos rfl])
    · exact wm8956_clkdiv_case h hw c h.CLOCK2 0x03f div 6 3 hv hl
        (by simp [wm8956_h.regs]) (by decide) (by decide) (by decide) hdiv _
        (by unfold wm8956_set_dai_clkdiv
            rw [if_neg (Ne.symm a4), if_neg (Ne.symm b4), if_neg (Ne.symm c4),
              if_neg (Ne.symm d4), if_pos rfl])
    · exact wm8956_clkdiv_case h hw c h.ADDCTL1 0x1fd div 1 1 hv hl
        (by simp [wm8956_h.regs]) (by decide) (by decide) (by decide) hdiv _
        (by unfold wm8956_set_dai_clkdiv
            rw [if_neg (Ne.symm a5), if_neg (Ne.symm b5), if_neg (Ne.symm c5),
              if_neg (Ne.symm d5), if_neg (Ne.symm e5), if_pos rfl])
  · intro div_id hnot
    simp only [wm8956_clkdiv_fields, List.map_cons, List.map_nil, List.mem_cons,
      List.mem_singleton, List.not_mem_nil, not_or, or_false] at hnot
    obtain ⟨n1, n2, n3, n4, n5, n6⟩ := hnot
    unfold wm8956_set_dai_clkdiv
    rw [if_neg n1, if_neg n2, if_neg n3, if_neg n4, if_neg n5, if_neg n6]

/-- Witness of C13: DCLKDIV with code 0x80 on the reset defaults, where `CLOCK2` holds
0x1c0: one write of `CLOCK2`, bit 7 set from the code, bits 6 and 8 cleared. -/
theorem wm8956_set_dai_clkdiv_rmw_witness :
    ∃ v, wm8956_set_dai_clkdiv wm8956_map hw_ok wm8956_codec0 wm8956_map.DCLKDIV 0x80
          = (0, { wm8956_codec0 with
                    reg_cache := wm8956_codec0.reg_cache.set wm8956_map.CLOCK2 v,
                    sent := wm8956_codec0.sent ++ [wire_data wm8956_map.CLOCK2 v] }) ∧
      v.testBit 7 = true ∧ v.testBit 6 = false ∧ v.testBit 8 = false ∧
      v.testBit 0 = false := by
  have hdiv : ∀ b, (0x80 : Nat).testBit b = true → in_field 6 3 b := by
    intro b hb
    have e : (0x80 : Nat) = 2 ^ 7 := by decide
    rw [e, Nat.testBit_two_pow] at hb
    have hb7 : 7 = b := of_decide_eq_true hb
    subst hb7
    decide
  obtain ⟨v, h1, _, h3, _⟩ :=
    (wm8956_set_dai_clkdiv_rmw wm8956_map hw_ok wm8956_codec0 0x80 (by decide)
      (by decide)).1 wm8956_map.DCLKDIV wm8956_map.CLOCK2 6 3 (by decide) hdiv
  have hb := h3 (by decide)
  exact ⟨v, h1, (hb 7).trans (by decide), (hb 6).trans (by decide),
    (hb 8).trans (by decide), (hb 0).trans (by decide)⟩


/-! ## Stream parameters -/

theorem wm8950_write_eq (h : wm8950_h) (hw : hw_write_t) (c : snd_soc_codec)
    (reg v : Nat) (hn : h.CACHEREGNUM ≤ 65536) (hr : reg < h.CACHEREGNUM) (hv : v < 65536) :
    (wm8950_write h hw c reg v).2
      = { c with reg_cache := c.reg_cache.set reg v,
                 sent := c.sent ++ [wire_data reg v] } := by
  have hm16 : reg % 65536 = reg := Nat.mod_eq_of_lt (by omega)
  rw [wm8950_write_snd, hm16]
  unfold wm8950_write_reg_cache
  rw [if_neg (Nat.not_le.mpr hr), Nat.mod_eq_of_lt hv]

theorem wm8956_write_eq (h : wm8956_h) (hw : hw_write_t) (c : snd_soc_codec)
    (reg v : Nat) (hn : h.CACHEREGNUM ≤ 65536) (hr : reg < h.CACHEREGNUM) (hv : v < 65536) :
    (wm8956_write h hw c reg v).2
      = { c with reg_cache := c.reg_cache.set reg v,
                 sent := c.sent ++ [wire_data reg v] } := by
  have hm16 : reg % 65536 = reg := Nat.mod_eq_of_lt (by omega)
  rw [wm8956_write_snd, hm16]
  unfold wm8956_write_reg_cache
  rw [if_neg (Nat.not_le.mpr hr), Nat.mod_eq_of_lt hv]

theorem wm8950_hw_adn_unmapped (s : sound_h) (rate adn : Nat)
    (hrate : rate ∉ [s.SNDRV_PCM_RATE_8000, s.SNDRV_PCM_RATE_11025, s.SNDRV_PCM_RATE_16000,
      s.SNDRV_PCM_RATE_22050, s.SNDRV_PCM_RATE_32000, s.SNDRV_PCM_RATE_44100]) :
    wm8950_hw_adn s rate adn = adn := by
  simp only [List.mem_cons, List.mem_singleton, List.not_mem_nil, not_or, or_false] at hrate
  obtain ⟨n1, n2, n3, n4, n5, _⟩ := hrate
  unfold wm8950_hw_adn
  rw [if_neg n1, if_neg n2, if_neg n3, if_neg n4, if_neg n5]
  split <;> rfl

theorem wm8950_hw_iface_lt (s : sound_h) (format : Int) (iface : Nat)
    (hi : iface < 65536) : wm8950_hw_iface s format iface < 65536 := by
  unfold wm8950_hw_iface
  split_ifs <;> first | exact hi | exact Nat.mod_lt _ (by decide)

/-- The codec after `wm8950_pcm_hw_params` on a well-formed header: the two writes. -/
theorem wm8950_pcm_hw_params_eq (h : wm8950_h) (s : sound_h) (hw : hw_write_t)
    (c : snd_soc_codec) (format : Int) (rate : Nat) (hv : h.valid) :
    wm8950_pcm_hw_params h s hw c format rate
      = (0, { c with
          reg_cache := (c.reg_cache.set h.IFACE
              (wm8950_hw_iface s format ((c.reg_cache.getD h.IFACE 0 &&& 0x19f) % 65536))).set
            h.ADD (wm8950_hw_adn s rate ((c.reg_cache.getD h.ADD 0 &&& 0x1f1) % 65536)),
          sent := c.sent ++
            [wire_data h.IFACE
              (wm8950_hw_iface s format ((c.reg_cache.getD h.IFACE 0 &&& 0x19f) % 65536)),
             wire_data h.ADD
              (wm8950_hw_adn s rate ((c.reg_cache.getD h.ADD 0 &&& 0x1f1) % 65536))] }) := by
  have hI := hv.2.1 h.IFACE (by simp [wm8950_h.regs])
  have hA := hv.2.1 h.ADD (by simp [wm8950_h.regs])
  have hadn : wm8950_hw_adn s rate ((c.reg_cache.getD h.ADD 0 &&& 0x1f1) % 65536) < 65536 := by
    unfold wm8950_hw_adn
    split_ifs <;> exact Nat.mod_lt _ (by decide)
  have hif := wm8950_hw_iface_lt s format ((c.reg_cache.getD h.IFACE 0 &&& 0x19f) % 65536)
    (Nat.mod_lt _ (by decide))
  unfold wm8950_pcm_hw_params
  simp only []
  rw [wm8950_read_cached h c h.IFACE hI.1 hI.2, wm8950_read_cached h c h.ADD hA.1 hA.2,
    wm8950_write_eq h hw c h.IFACE _ hv.1 hI.1 hif,
    wm8950_write_eq h hw _ h.ADD _ hv.1 hA.1 hadn]
  simp


theorem getD_set_set (l : List Nat) (i j a b : Nat) (hj : j < l.length) :
    ((l.set i a).set j b).getD j 0 = b := by
  rw [getD_set _ _ _ _ (by rw [List.length_set]; exact hj), if_pos rfl]

/-- C14, as stated, fails: on a codec whose `ADD` register holds the filter code 5 (left
by a call with the 8000 constant), a call with the rate 48000, which matches none of the
mapped cases, returns 0 and leaves the code 0 in bits 1..3, not 5. -/
theorem wm8950_pcm_hw_params_filter_field_changes :
    (48000 : Nat) ∉ [sound_map.SNDRV_PCM_RATE_8000, sound_map.SNDRV_PCM_RATE_11025,
      sound_map.SNDRV_PCM_RATE_16000, sound_map.SNDRV_PCM_RATE_22050,
      sound_map.SNDRV_PCM_RATE_32000, sound_map.SNDRV_PCM_RATE_44100] ∧
    (wm8950_pcm_hw_params wm8950_map sound_map hw_ok wm8950_codec0 2
        sound_map.SNDRV_PCM_RATE_8000).2.reg_cache.getD wm8950_map.ADD 0 / 2 % 8 = 5 ∧
    (wm8950_pcm_hw_params wm8950_map sound_map hw_ok
        (wm8950_pcm_hw_params wm8950_map sound_map hw_ok wm8950_codec0 2
          sound_map.SNDRV_PCM_RATE_8000).2 2 48000).1 = 0 ∧
    (wm8950_pcm_hw_params wm8950_map sound_map hw_ok
        (wm8950_pcm_hw_params wm8950_map sound_map hw_ok wm8950_codec0 2
          sound_map.SNDRV_PCM_RATE_8000).2 2 48000).2.reg_cache.getD wm8950_map.ADD 0
          / 2 % 8 = 0 ∧
    ¬ ((wm8950_pcm_hw_params wm8950_map sound_map hw_ok
        (wm8950_pcm_hw_params wm8950_map sound_map hw_ok wm8950_codec0 2
          sound_map.SNDRV_PCM_RATE_8000).2 2 48000).2.reg_cache.getD wm8950_map.ADD 0
          / 2 % 8
        = (wm8950_pcm_hw_params wm8950_map sound_map hw_ok wm8950_codec0 2
          sound_map.SNDRV_PCM_RATE_8000).2.reg_cache.getD wm8950_map.ADD 0 / 2 % 8) := by
  refine ⟨by decide, by decide, by decide, by decide, by decide⟩

/-- C14, amended: `wm8950_pcm_hw_params` with a rate that matches none of the mapped
cases returns 0 and writes `ADD` with the filter coefficient field (bits 1..3) cleared:
the cached `ADD` value afterwards has bits 1..3 equal to 0 and its bits 0 and 4..8 as
before the call. -/
theorem wm8950_pcm_hw_params_unmapped_rate (h : wm8950_h) (s : sound_h) (hw : hw_write_t)
    (c : snd_soc_codec) (format : Int) (rate : Nat) (hv : h.valid)
    (hl : c.reg_cache.length = h.CACHEREGNUM)
    (hrate : rate ∉ [s.SNDRV_PCM_RATE_8000, s.SNDRV_PCM_RATE_11025, s.SNDRV_PCM_RATE_16000,
      s.SNDRV_PCM_RATE_22050, s.SNDRV_PCM_RATE_32000, s.SNDRV_PCM_RATE_44100]) :
    (wm8950_pcm_hw_params h s hw c format rate).1 = 0 ∧
    (wm8950_pcm_hw_params h s hw c format rate).2.reg_cache.getD h.ADD 0
      = c.reg_cache.getD h.ADD 0 &&& 0x1f1 ∧
    (∀ b, ((wm8950_pcm_hw_params h s hw c format rate).2.reg_cache.getD h.ADD 0).testBit b
      = if in_field 1 3 b then false
        else ((c.reg_cache.getD h.ADD 0).testBit b && decide (b ≤ 8))) := by
  have hA := hv.2.1 h.ADD (by simp [wm8950_h.regs])
  have hlt : c.reg_cache.getD h.ADD 0 &&& 0x1f1 < 65536 :=
    Nat.lt_of_le_of_lt Nat.and_le_right (by decide)
  have hval : (wm8950_pcm_hw_params h s hw c format rate).2.reg_cache.getD h.ADD 0
      = c.reg_cache.getD h.ADD 0 &&& 0x1f1 := by
    rw [wm8950_pcm_hw_params_eq h s hw c format rate hv]
    show ((c.reg_cache.set h.IFACE _).set h.ADD _).getD h.ADD 0 = _
    rw [getD_set_set _ _ _ _ _ (by omega), wm8950_hw_adn_unmapped s rate _ hrate,
      Nat.mod_eq_of_lt hlt]
  refine ⟨by rw [wm8950_pcm_hw_params_eq h s hw c format rate hv], hval, fun b => ?_⟩
  rw [hval]
  have hb := rmw_testBit (c.reg_cache.getD h.ADD 0) 0x1f1 0 1 3 (by decide) (by decide)
    (by simp) b
  rw [Nat.mod_eq_of_lt hlt, Nat.or_zero] at hb
  rw [hb]
  split <;> simp

/-- Witness of the amended C14: the rate 48000 on a codec whose `ADD` register holds the
filter code 5. -/
theorem wm8950_pcm_hw_params_unmapped_rate_witness :
    (wm8950_pcm_hw_params wm8950_map sound_map hw_ok
        (wm8950_pcm_hw_params wm8950_map sound_map hw_ok wm8950_codec0 2
          sound_map.SNDRV_PCM_RATE_8000).2 2 48000).1 = 0 ∧
    (wm8950_pcm_hw_params wm8950_map sound_map hw_ok
        (wm8950_pcm_hw_params wm8950_map sound_map hw_ok wm8950_codec0 2
          sound_map.SNDRV_PCM_RATE_8000).2 2 48000).2.reg_cache.getD wm8950_map.ADD 0 = 0 :=
  have h := wm8950_pcm_hw_params_unmapped_rate wm8950_map sound_map hw_ok
    (wm8950_pcm_hw_params wm8950_map sound_map hw_ok wm8950_codec0 2
      sound_map.SNDRV_PCM_RATE_8000).2 2 48000 (by decide) (by decide) (by decide)
  ⟨h.1, h.2.1.trans (by decide)⟩


theorem testBit_mask (m lo w n : Nat) (hm : m < 2 ^ n)
    (hb : ∀ b < n, m.testBit b = decide (¬ in_field lo w b)) (b : Nat) :
    m.testBit b = decide (b < n ∧ ¬ in_field lo w b) := by
  by_cases hn : b < n
  · rw [hb b hn]
    simp [hn]
  · have h1 : m < 2 ^ b :=
      Nat.lt_of_lt_of_le hm (Nat.pow_le_pow_right (by decide) (by omega))
    rw [Nat.testBit_lt_two_pow h1]
    simp [hn]

theorem shiftLeft_testBit_field (code lo w b : Nat) (hc : code < 2 ^ w) :
    (code <<< lo).testBit b = if in_field lo w b then code.testBit (b - lo) else false := by
  rw [Nat.testBit_shiftLeft]
  by_cases hf : in_field lo w b
  · rw [if_pos hf]
    have : b ≥ lo := hf.1
    simp [this]
  · rw [if_neg hf]
    by_cases hlo : b ≥ lo
    · have hge : w ≤ b - lo := by
        unfold in_field at hf
        omega
      have h1 : code < 2 ^ (b - lo) :=
        Nat.lt_of_lt_of_le hc (Nat.pow_le_pow_right (by decide) hge)
      rw [Nat.testBit_lt_two_pow h1]
      simp
    · simp [hlo]

theorem shiftLeft_lt (code lo w n : Nat) (hc : code < 2 ^ w) (hlw : lo + w ≤ n) :
    code <<< lo < 2 ^ n := by
  apply Nat.lt_pow_two_of_testBit
  intro i hi
  rw [shiftLeft_testBit_field code lo w i hc]
  have : ¬ in_field lo w i := by
    unfold in_field
    omega
  rw [if_neg this]

/-- Replacing a field: the value `((x & m) | (code << lo))` kept in a `u16` has the code
in the field and the bits of `x` that the mask keeps elsewhere. -/
theorem field_replace_testBit (x m code lo w n b : Nat) (hm : m < 2 ^ n) (hn : n ≤ 16)
    (hmb : ∀ b < n, m.testBit b = decide (¬ in_field lo w b)) (hc : code < 2 ^ w)
    (hlw : lo + w ≤ n) :
    ((((x &&& m) % 65536) ||| (code <<< lo)) % 65536).testBit b
      = if in_field lo w b then code.testBit (b - lo)
        else (x.testBit b && decide (b < n)) := by
  have h16 : 2 ^ n ≤ 2 ^ 16 := Nat.pow_le_pow_right (by decide) hn
  have hlt : x &&& m < 65536 :=
    Nat.lt_of_le_of_lt Nat.and_le_right (Nat.lt_of_lt_of_le hm h16)
  have hsl : code <<< lo < 2 ^ 16 := shiftLeft_lt code lo w 16 hc (by omega)
  have hor : (x &&& m) ||| (code <<< lo) < 65536 := Nat.or_lt_two_pow (n := 16) hlt hsl
  rw [Nat.mod_eq_of_lt hlt, Nat.mod_eq_of_lt hor, Nat.testBit_or, Nat.testBit_and,
    testBit_mask m lo w n hm hmb b, shiftLeft_testBit_field code lo w b hc]
  by_cases hf : in_field lo w b
  · rw [if_pos hf, if_pos hf]
    simp [hf]
  · rw [if_neg hf, if_neg hf]
    simp [hf]

theorem wm8950_hw_iface_code (s : sound_h) (format : Int) (code iface : Nat)
    (hs : s.formats_distinct) (hmem : (format, code) ∈ wm8950_word_length s)
    (hi : iface < 65536) :
    wm8950_hw_iface s format iface = (iface ||| (code <<< 5)) % 65536 ∧ code < 2 ^ 2 := by
  unfold sound_h.formats_distinct at hs
  simp only [List.nodup_cons, List.mem_cons, List.mem_singleton, List.not_mem_nil,
    not_or, or_false, List.nodup_nil, and_true, not_false_eq_true] at hs
  obtain ⟨⟨a1, a2, a3⟩, ⟨b2, b3⟩, c3⟩ := hs
  simp only [wm8950_word_length, List.mem_cons, List.mem_singleton, List.not_mem_nil,
    or_false, Prod.mk.injEq] at hmem
  unfold wm8950_hw_iface
  rcases hmem with ⟨rfl, rfl⟩ | ⟨rfl, rfl⟩ | ⟨rfl, rfl⟩ | ⟨rfl, rfl⟩
  · rw [if_pos rfl]
    exact ⟨by simp [Nat.mod_eq_of_lt hi], by decide⟩
  · rw [if_neg (Ne.symm a1), if_pos rfl]
    exact ⟨rfl, by decide⟩
  · rw [if_neg (Ne.symm a2), if_neg (Ne.symm b2), if_pos rfl]
    exact ⟨rfl, by decide⟩
  · rw [if_neg (Ne.symm a3), if_neg (Ne.symm b3), if_neg (Ne.symm c3), if_pos rfl]
    exact ⟨rfl, by decide⟩

theorem wm8956_hw_iface_code (s : sound_h) (format : Int) (code iface : Nat)
    (hs : s.formats_distinct) (hmem : (format, code) ∈ wm8956_word_length s)
    (hi : iface < 65536) :
    wm8956_hw_iface s format iface = (iface ||| (code <<< 2)) % 65536 ∧ code < 2 ^ 2 := by
  unfold sound_h.formats_distinct at hs
  simp only [List.nodup_cons, List.mem_cons, List.mem_singleton, List.not_mem_nil,
    not_or, or_false, List.nodup_nil, and_true, not_false_eq_true] at hs
  obtain ⟨⟨a1, a2, _⟩, ⟨b2, _⟩, _⟩ := hs
  simp only [wm8956_word_length, List.mem_cons, List.mem_singleton, List.not_mem_nil,
    or_false, Prod.mk.injEq] at hmem
  unfold wm8956_hw_iface
  rcases hmem with ⟨rfl, rfl⟩ | ⟨rfl, rfl⟩ | ⟨rfl, rfl⟩
  · rw [if_pos rfl]
    exact ⟨by simp [Nat.mod_eq_of_lt hi], by decide⟩
  · rw [if_neg (Ne.symm a1), if_pos rfl]
    exact ⟨rfl, by decide⟩
  · rw [if_neg (Ne.symm a2), if_neg (Ne.symm b2), if_pos rfl]
    exact ⟨rfl, by decide⟩

theorem nodup_getElem_ne (l : List Nat) (hn : l.Nodup) (i j : Nat) (hi : i < l.length)
    (hj : j < l.length) (hij : i ≠ j) : l[i] ≠ l[j] :=
  fun e => hij ((List.Nodup.getElem_inj_iff hn).mp e)

theorem testBit_and_decide_lt (x n b : Nat) (hx : x < 2 ^ n) :
    (x.testBit b && decide (b < n)) = x.testBit b := by
  by_cases hb : b < n
  · simp [hb]
  · have h1 : x < 2 ^ b :=
      Nat.lt_of_lt_of_le hx (Nat.pow_le_pow_right (by decide) (by omega))
    rw [Nat.testBit_lt_two_pow h1]
    rfl

/-- The codec after `wm8956_hw_params` on a well-formed header: the one write. -/
theorem wm8956_hw_params_eq (h : wm8956_h) (s : sound_h) (hw : hw_write_t)
    (c : snd_soc_codec) (format : Int) (hv : h.valid) :
    wm8956_hw_params h s hw c format
      = (0, { c with
          reg_cache := c.reg_cache.set h.IFACE1
            (wm8956_hw_iface s format ((c.reg_cache.getD h.IFACE1 0 &&& 0xfff3) % 65536)),
          sent := c.sent ++
            [wire_data h.IFACE1
              (wm8956_hw_iface s format
                ((c.reg_cache.getD h.IFACE1 0 &&& 0xfff3) % 65536))] }) := by
  have hI := hv.2.1 h.IFACE1 (by simp [wm8956_h.regs])
  have hif : wm8956_hw_iface s format ((c.reg_cache.getD h.IFACE1 0 &&& 0xfff3) % 65536)
      < 65536 := by
    unfold wm8956_hw_iface
    split_ifs <;> exact Nat.mod_lt _ (by decide)
  unfold wm8956_hw_params
  simp only []
  rw [wm8956_read_cached h c h.IFACE1 hI.1 hI.2,
    wm8956_write_eq h hw c h.IFACE1 _ hv.1 hI.1 hif]

/-- C15: in both drivers `hw_params` rewrites only the word-length field of the
interface register. For each sample format of the table (16, 20, 24 and, on the wm8950,
32 bits, with codes 0, 1, 2, 3) the value `v` written to the interface register has the
code in the field (bits 5..6 on the wm8950, bits 2..3 on the wm8956) and the cached bit
everywhere else, for a cached value that fits the register (9 bits on the wm8950, the
16-bit entry on the wm8956); the cache holds `v` afterwards, and on the wm8950 the `CLOCK`
register with the master bit is untouched. -/
theorem hw_params_word_length (h0 : wm8950_h) (h6 : wm8956_h) (s : sound_h)
    (hw : hw_write_t) (c0 c6 : snd_soc_codec) (rate : Nat) (hv0 : h0.valid)
    (hv6 : h6.valid) (hl0 : c0.reg_cache.length = h0.CACHEREGNUM)
    (hl6 : c6.reg_cache.length = h6.CACHEREGNUM) (hs : s.formats_distinct) :
    (∀ format code, (format, code) ∈ wm8950_word_length s →
      ∃ v adn, wm8950_pcm_hw_params h0 s hw c0 format rate
          = (0, { c0 with
              reg_cache := (c0.reg_cache.set h0.IFACE v).set h0.ADD adn,
              sent := c0.sent ++ [wire_data h0.IFACE v, wire_data h0.ADD adn] }) ∧
        (wm8950_pcm_hw_params h0 s hw c0 format rate).2.reg_cache.getD h0.IFACE 0 = v ∧
        (wm8950_pcm_hw_params h0 s hw c0 format rate).2.reg_cache.getD h0.CLOCK 0
          = c0.reg_cache.getD h0.CLOCK 0 ∧
        (∀ b, v.testBit b = if in_field 5 2 b then code.testBit (b - 5)
            else ((c0.reg_cache.getD h0.IFACE 0).testBit b && decide (b < 9))) ∧
        (c0.reg_cache.getD h0.IFACE 0 < 2 ^ 9 →
          ∀ b, v.testBit b = if in_field 5 2 b then code.testBit (b - 5)
            else (c0.reg_cache.getD h0.IFACE 0).testBit b)) ∧
    (∀ format code, (format, code) ∈ wm8956_word_length s →
      ∃ v, wm8956_hw_params h6 s hw c6 format
          = (0, { c6 with
              reg_cache := c6.reg_cache.set h6.IFACE1 v,
              sent := c6.sent ++ [wire_data h6.IFACE1 v] }) ∧
        (wm8956_hw_params h6 s hw c6 format).2.reg_cache.getD h6.IFACE1 0 = v ∧
        (∀ b, v.testBit b = if in_field 2 2 b then code.testBit (b - 2)
            else ((c6.reg_cache.getD h6.IFACE1 0).testBit b && decide (b < 16))) ∧
        (c6.reg_cache.getD h6.IFACE1 0 < 2 ^ 16 →
          ∀ b, v.testBit b = if in_field 2 2 b then code.testBit (b - 2)
            else (c6.reg_cache.getD h6.IFACE1 0).testBit b)) := by
  constructor
  · intro format code hmem
    have hI := hv0.2.1 h0.IFACE (by simp [wm8950_h.regs])
    have hA := hv0.2.1 h0.ADD (by simp [wm8950_h.regs])
    have hC := hv0.2.1 h0.CLOCK (by simp [wm8950_h.regs])
    have hnd := hv0.2.2.1
    have hIA : h0.IFACE ≠ h0.ADD :=
      nodup_getElem_ne h0.regs hnd 3 5 (by simp [wm8950_h.regs])
        (by simp [wm8950_h.regs]) (by decide)
    have hCI : h0.CLOCK ≠ h0.IFACE :=
      nodup_getElem_ne h0.regs hnd 4 3 (by simp [wm8950_h.regs])
        (by simp [wm8950_h.regs]) (by decide)
    have hCA : h0.CLOCK ≠ h0.ADD :=
      nodup_getElem_ne h0.regs hnd 4 5 (by simp [wm8950_h.regs])
        (by simp [wm8950_h.regs]) (by decide)
    obtain ⟨hcode, hc4⟩ := wm8950_hw_iface_code s format code
      ((c0.reg_cache.getD h0.IFACE 0 &&& 0x19f) % 65536) hs hmem (Nat.mod_lt _ (by decide))
    have hbits : ∀ b, (wm8950_hw_iface s format
        ((c0.reg_cache.getD h0.IFACE 0 &&& 0x19f) % 65536)).testBit b
        = if in_field 5 2 b then code.testBit (b - 5)
          else ((c0.reg_cache.getD h0.IFACE 0).testBit b && decide (b < 9)) := by
      intro b
      rw [hcode]
      exact field_replace_testBit _ 0x19f code 5 2 9 b (by decide) (by decide) (by decide)
        hc4 (by decide)
    refine ⟨_, _, wm8950_pcm_hw_params_eq h0 s hw c0 format rate hv0, ?_, ?_, hbits,
      fun h9 b => ?_⟩
    · rw [wm8950_pcm_hw_params_eq h0 s hw c0 format rate hv0]
      show ((c0.reg_cache.set h0.IFACE _).set h0.ADD _).getD h0.IFACE 0 = _
      rw [getD_set _ _ _ _ (by rw [List.length_set]; omega), if_neg hIA,
        getD_set _ _ _ _ (by omega), if_pos rfl]
    · rw [wm8950_pcm_hw_params_eq h0 s hw c0 format rate hv0]
      show ((c0.reg_cache.set h0.IFACE _).set h0.ADD _).getD h0.CLOCK 0 = _
      rw [getD_set _ _ _ _ (by rw [List.length_set]; omega), if_neg hCA,
        getD_set _ _ _ _ (by omega), if_neg hCI]
    · rw [hbits b, testBit_and_decide_lt _ 9 b h9]
  · intro format code hmem
    have hI := hv6.2.1 h6.IFACE1 (by simp [wm8956_h.regs])
    obtain ⟨hcode, hc4⟩ := wm8956_hw_iface_code s format code
      ((c6.reg_cache.getD h6.IFACE1 0 &&& 0xfff3) % 65536) hs hmem (Nat.mod_lt _ (by decide))
    have hbits : ∀ b, (wm8956_hw_iface s format
        ((c6.reg_cache.getD h6.IFACE1 0 &&& 0xfff3) % 65536)).testBit b
        = if in_field 2 2 b then code.testBit (b - 2)
          else ((c6.reg_cache.getD h6.IFACE1 0).testBit b && decide (b < 16)) := by
      intro b
      rw [hcode]
      exact field_replace_testBit _ 0xfff3 code 2 2 16 b (by decide) (by decide)
        (by decide) hc4 (by decide)
    refine ⟨_, wm8956_hw_params_eq h6 s hw c6 format hv6, ?_, hbits, fun h16 b => ?_⟩
    · rw [wm8956_hw_params_eq h6 s hw c6 format hv6]
      show (c6.reg_cache.set h6.IFACE1 _).getD h6.IFACE1 0 = _
      rw [getD_set _ _ _ _ (by omega), if_pos rfl]
    · rw [hbits b, testBit_and_decide_lt _ 16 b h16]

/-- Witness of C15: 24-bit samples (code 2) on the reset defaults of each chip, where
the wm8950 interface register holds 0x050 and the wm8956 one 0x00a. -/
theorem hw_params_word_length_witness :
    (∃ v, (wm8950_pcm_hw_params wm8950_map sound_map hw_ok wm8950_codec0
            sound_map.SNDRV_PCM_FORMAT_S24_LE 48000).2.reg_cache.getD wm8950_map.IFACE 0 = v ∧
        v.testBit 6 = true ∧ v.testBit 5 = false ∧ v.testBit 4 = true) ∧
    (∃ v, (wm8956_hw_params wm8956_map sound_map hw_ok wm8956_codec0
            sound_map.SNDRV_PCM_FORMAT_S24_LE).2.reg_cache.getD wm8956_map.IFACE1 0 = v ∧
        v.testBit 3 = true ∧ v.testBit 2 = false ∧ v.testBit 1 = true) := by
  have h := hw_params_word_length wm8950_map wm8956_map sound_map hw_ok wm8950_codec0
    wm8956_codec0 48000 (by decide) (by decide) (by decide) (by decide) (by decide)
  obtain ⟨v, _, _, h2, _, _, h5⟩ := h.1 sound_map.SNDRV_PCM_FORMAT_S24_LE 2 (by decide)
  obtain ⟨u, _, g2, _, g4⟩ := h.2 sound_map.SNDRV_PCM_FORMAT_S24_LE 2 (by decide)
  have hb := h5 (by decide)
  have gb := g4 (by decide)
  exact ⟨⟨v, h2, (hb 6).trans (by decide), (hb 5).trans (by decide),
      (hb 4).trans (by decide)⟩,
    ⟨u, g2, (gb 3).trans (by decide), (gb 2).trans (by decide), (gb 1).trans (by decide)⟩⟩


/-! ## Bias levels -/

theorem wm8950_write_getElem? (h : wm8950_h) (hw : hw_write_t) (c : snd_soc_codec)
    (r v j : Nat) :
    (wm8950_write h hw c r v).2.reg_cache[j]?
      = if r % 65536 < h.CACHEREGNUM ∧ r % 65536 = j
        then (c.reg_cache[j]?).map (fun _ => v % 65536) else c.reg_cache[j]? := by
  rw [wm8950_write_snd]
  unfold wm8950_write_reg_cache
  by_cases hg : r % 65536 ≥ h.CACHEREGNUM
  · rw [if_pos hg, if_neg (fun hh => absurd hh.1 (Nat.not_lt.mpr hg))]
  · rw [if_neg hg]
    show (c.reg_cache.set (r % 65536) (v % 65536))[j]? = _
    rw [List.getElem?_set]
    by_cases hj : r % 65536 = j
    · subst hj
      have hcond : r % 65536 < h.CACHEREGNUM ∧ r % 65536 = r % 65536 :=
        ⟨Nat.not_le.mp hg, rfl⟩
      rw [if_pos rfl, if_pos hcond]
      by_cases hlen : r % 65536 < c.reg_cache.length
      · rw [if_pos hlen, List.getElem?_eq_getElem hlen]
        rfl
      · rw [if_neg hlen, List.getElem?_eq_none (Nat.not_lt.mp hlen)]
        rfl
    · rw [if_neg hj, if_neg (fun hh => hj hh.2)]

theorem wm8956_write_getElem? (h : wm8956_h) (hw : hw_write_t) (c : snd_soc_codec)
    (r v j : Nat) :
    (wm8956_write h hw c r v).2.reg_cache[j]?
      = if r % 65536 < h.CACHEREGNUM ∧ r % 65536 = j
        then (c.reg_cache[j]?).map (fun _ => v % 65536) else c.reg_cache[j]? := by
  rw [wm8956_write_snd]
  unfold wm8956_write_reg_cache
  by_cases hg : r % 65536 ≥ h.CACHEREGNUM
  · rw [if_pos hg, if_neg (fun hh => absurd hh.1 (Nat.not_lt.mpr hg))]
  · rw [if_neg hg]
    show (c.reg_cache.set (r % 65536) (v % 65536))[j]? = _
    rw [List.getElem?_set]
    by_cases hj : r % 65536 = j
    · subst hj
      have hcond : r % 65536 < h.CACHEREGNUM ∧ r % 65536 = r % 65536 :=
        ⟨Nat.not_le.mp hg, rfl⟩
      rw [if_pos rfl, if_pos hcond]
      by_cases hlen : r % 65536 < c.reg_cache.length
      · rw [if_pos hlen, List.getElem?_eq_getElem hlen]
        rfl
      · rw [if_neg hlen, List.getElem?_eq_none (Nat.not_lt.mp hlen)]
        rfl
    · rw [if_neg hj, if_neg (fun hh => hj hh.2)]

theorem wm8950_write_sent (h : wm8950_h) (hw : hw_write_t) (c : snd_soc_codec)
    (r v : Nat) : (wm8950_write h hw c r v).2.sent = c.sent ++ [wire_data r v] := by
  rw [wm8950_write_snd]

theorem wm8956_write_sent (h : wm8956_h) (hw : hw_write_t) (c : snd_soc_codec)
    (r v : Nat) : (wm8956_write h hw c r v).2.sent = c.sent ++ [wire_data r v] := by
  rw [wm8956_write_snd]

/-- The frames one call of `wm8950_set_bias_level` hands to the transport. -/
theorem wm8950_set_bias_level_sent (h : wm8950_h) (hw : hw_write_t) (c : snd_soc_codec)
    (x : snd_soc_bias_level) :
    (wm8950_set_bias_level h hw c x).2.sent = c.sent ++
      (match x with
       | .SND_SOC_BIAS_ON =>
         [wire_data h.POWER1 0x1ff, wire_data h.POWER2 0x1ff, wire_data h.POWER3 0x1ff]
       | .SND_SOC_BIAS_PREPARE => []
       | .SND_SOC_BIAS_STANDBY => []
       | .SND_SOC_BIAS_OFF =>
         [wire_data h.POWER1 0x0, wire_data h.POWER2 0x0, wire_data h.POWER3 0x0]) := by
  cases x <;>
    simp [wm8950_set_bias_level, wm8950_write_sent]

/-- The frames one call of `wm8956_set_bias_level` hands to the transport. -/
theorem wm8956_set_bias_level_sent (h : wm8956_h) (hw : hw_write_t) (c : snd_soc_codec)
    (x : snd_soc_bias_level) :
    (wm8956_set_bias_level h hw c x).2.sent = c.sent ++
      [wire_data h.POWER1 0xfffe, wire_data h.POWER2 0xffff, wire_data h.POWER3 0xffff] := by
  simp [wm8956_set_bias_level, wm8956_write_sent]

theorem wm8950_set_bias_level_cache_idem (h : wm8950_h) (hw : hw_write_t)
    (c : snd_soc_codec) (x : snd_soc_bias_level) :
    (wm8950_set_bias_level h hw (wm8950_set_bias_level h hw c x).2 x).2.reg_cache
      = (wm8950_set_bias_level h hw c x).2.reg_cache := by
  apply List.ext_getElem?
  intro j
  cases x <;> simp only [wm8950_set_bias_level, wm8950_write_getElem?]
  all_goals
    split_ifs <;> cases c.reg_cache[j]? <;> simp

theorem wm8956_set_bias_level_cache_idem (h : wm8956_h) (hw : hw_write_t)
    (c : snd_soc_codec) (x : snd_soc_bias_level) :
    (wm8956_set_bias_level h hw (wm8956_set_bias_level h hw c x).2 x).2.reg_cache
      = (wm8956_set_bias_level h hw c x).2.reg_cache := by
  apply List.ext_getElem?
  intro j
  simp only [wm8956_set_bias_level, wm8956_write_getElem?]
  split_ifs <;> cases c.reg_cache[j]? <;> simp

/-- C16: in both drivers two calls of `set_bias_level` with the same level in a row hand
the same sequence of frames (register, value) to the bus, both return 0, and the register
cache and the recorded bias level after the second call are those after the first:
nothing is skipped for being already there. -/
theorem set_bias_level_twice (h0 : wm8950_h) (h6 : wm8956_h) (hw : hw_write_t)
    (c : snd_soc_codec) (x : snd_soc_bias_level) :
    ((wm8950_set_bias_level h0 hw c x).2.sent = c.sent ++
        (match x with
         | .SND_SOC_BIAS_ON =>
           [wire_data h0.POWER1 0x1ff, wire_data h0.POWER2 0x1ff, wire_data h0.POWER3 0x1ff]
         | .SND_SOC_BIAS_PREPARE => []
         | .SND_SOC_BIAS_STANDBY => []
         | .SND_SOC_BIAS_OFF =>
           [wire_data h0.POWER1 0x0, wire_data h0.POWER2 0x0, wire_data h0.POWER3 0x0]) ∧
     (wm8950_set_bias_level h0 hw (wm8950_set_bias_level h0 hw c x).2 x).2.sent
        = (wm8950_set_bias_level h0 hw c x).2.sent ++
        (match x with
         | .SND_SOC_BIAS_ON =>
           [wire_data h0.POWER1 0x1ff, wire_data h0.POWER2 0x1ff, wire_data h0.POWER3 0x1ff]
         | .SND_SOC_BIAS_PREPARE => []
         | .SND_SOC_BIAS_STANDBY => []
         | .SND_SOC_BIAS_OFF =>
           [wire_data h0.POWER1 0x0, wire_data h0.POWER2 0x0, wire_data h0.POWER3 0x0]) ∧
     (wm8950_set_bias_level h0 hw c x).1 = 0 ∧
     (wm8950_set_bias_level h0 hw (wm8950_set_bias_level h0 hw c x).2 x).1 = 0 ∧
     (wm8950_set_bias_level h0 hw (wm8950_set_bias_level h0 hw c x).2 x).2.reg_cache
        = (wm8950_set_bias_level h0 hw c x).2.reg_cache ∧
     (wm8950_set_bias_level h0 hw c x).2.bias_level = x ∧
     (wm8950_set_bias_level h0 hw (wm8950_set_bias_level h0 hw c x).2 x).2.bias_level
        = (wm8950_set_bias_level h0 hw c x).2.bias_level) ∧
    ((wm8956_set_bias_level h6 hw c x).2.sent = c.sent ++
        [wire_data h6.POWER1 0xfffe, wire_data h6.POWER2 0xffff,
         wire_data h6.POWER3 0xffff] ∧
     (wm8956_set_bias_level h6 hw (wm8956_set_bias_level h6 hw c x).2 x).2.sent
        = (wm8956_set_bias_level h6 hw c x).2.sent ++
        [wire_data h6.POWER1 0xfffe, wire_data h6.POWER2 0xffff,
         wire_data h6.POWER3 0xffff] ∧
     (wm8956_set_bias_level h6 hw c x).1 = 0 ∧
     (wm8956_set_bias_level h6 hw (wm8956_set_bias_level h6 hw c x).2 x).1 = 0 ∧
     (wm8956_set_bias_level h6 hw (wm8956_set_bias_level h6 hw c x).2 x).2.reg_cache
        = (wm8956_set_bias_level h6 hw c x).2.reg_cache ∧
     (wm8956_set_bias_level h6 hw c x).2.bias_level = x ∧
     (wm8956_set_bias_level h6 hw (wm8956_set_bias_level h6 hw c x).2 x).2.bias_level
        = (wm8956_set_bias_level h6 hw c x).2.bias_level) :=
  ⟨⟨wm8950_set_bias_level_sent h0 hw c x, wm8950_set_bias_level_sent h0 hw _ x, rfl, rfl,
    wm8950_set_bias_level_cache_idem h0 hw c x, rfl, rfl⟩,
   ⟨wm8956_set_bias_level_sent h6 hw c x, wm8956_set_bias_level_sent h6 hw _ x, rfl, rfl,
    wm8956_set_bias_level_cache_idem h6 hw c x, rfl, rfl⟩⟩

theorem wm8950_set_bias_level_cache_congr (h : wm8950_h) (hw : hw_write_t)
    (c1 c2 : snd_soc_codec) (x : snd_soc_bias_level) (hc : c1.reg_cache = c2.reg_cache) :
    (wm8950_set_bias_level h hw c1 x).2.reg_cache
      = (wm8950_set_bias_level h hw c2 x).2.reg_cache := by
  apply List.ext_getElem?
  intro j
  cases x <;> simp only [wm8950_set_bias_level, wm8950_write_getElem?, hc]

/-- On the wm8950 `set_bias_level(OFF)` writes 0 to `POWER1`, `POWER2`, `POWER3` in that
order and leaves 0 in the three cache entries; a STANDBY call leaves the cache alone, so
OFF, STANDBY, ON ends with the cache of OFF, ON. -/
theorem wm8950_set_bias_level_off (h : wm8950_h) (hw : hw_write_t) (c : snd_soc_codec)
    (hv : h.valid) (hl : c.reg_cache.length = h.CACHEREGNUM) :
    (wm8950_set_bias_level h hw c .SND_SOC_BIAS_OFF).2.sent
      = c.sent ++ [wire_data h.POWER1 0, wire_data h.POWER2 0, wire_data h.POWER3 0] ∧
    (wm8950_set_bias_level h hw c .SND_SOC_BIAS_OFF).2.reg_cache.getD h.POWER1 0 = 0 ∧
    (wm8950_set_bias_level h hw c .SND_SOC_BIAS_OFF).2.reg_cache.getD h.POWER2 0 = 0 ∧
    (wm8950_set_bias_level h hw c .SND_SOC_BIAS_OFF).2.reg_cache.getD h.POWER3 0 = 0 ∧
    (wm8950_set_bias_level h hw
        (wm8950_set_bias_level h hw
          (wm8950_set_bias_level h hw c .SND_SOC_BIAS_OFF).2 .SND_SOC_BIAS_STANDBY).2
        .SND_SOC_BIAS_ON).2.reg_cache
      = (wm8950_set_bias_level h hw
          (wm8950_set_bias_level h hw c .SND_SOC_BIAS_OFF).2 .SND_SOC_BIAS_ON).2.reg_cache := by
  have h1 := hv.2.1 h.POWER1 (by simp [wm8950_h.regs])
  have h2 := hv.2.1 h.POWER2 (by simp [wm8950_h.regs])
  have h3 := hv.2.1 h.POWER3 (by simp [wm8950_h.regs])
  have e : (wm8950_set_bias_level h hw c .SND_SOC_BIAS_OFF).2.reg_cache
      = ((c.reg_cache.set h.POWER1 0).set h.POWER2 0).set h.POWER3 0 := by
    simp only [wm8950_set_bias_level]
    rw [wm8950_write_eq h hw _ h.POWER3 0 hv.1 h3.1 (by decide),
      wm8950_write_eq h hw _ h.POWER2 0 hv.1 h2.1 (by decide),
      wm8950_write_eq h hw _ h.POWER1 0 hv.1 h1.1 (by decide)]
  refine ⟨wm8950_set_bias_level_sent h hw c _, ?_, ?_, ?_,
    wm8950_set_bias_level_cache_congr h hw _ _ _ rfl⟩
  · rw [e]
    simp only [getD_set _ _ _ _ (show h.POWER1 < c.reg_cache.length by omega),
      getD_set _ _ _ _ (show h.POWER2 < (c.reg_cache.set h.POWER1 0).length by
        rw [List.length_set]; omega),
      getD_set _ _ _ _ (show h.POWER3 < ((c.reg_cache.set h.POWER1 0).set h.POWER2 0).length by
        rw [List.length_set, List.length_set]; omega)]
    split_ifs <;> rfl
  · rw [e]
    simp only [getD_set _ _ _ _ (show h.POWER1 < c.reg_cache.length by omega),
      getD_set _ _ _ _ (show h.POWER2 < (c.reg_cache.set h.POWER1 0).length by
        rw [List.length_set]; omega),
      getD_set _ _ _ _ (show h.POWER3 < ((c.reg_cache.set h.POWER1 0).set h.POWER2 0).length by
        rw [List.length_set, List.length_set]; omega)]
    split_ifs <;> rfl
  · rw [e]
    simp only [getD_set _ _ _ _ (show h.POWER1 < c.reg_cache.length by omega),
      getD_set _ _ _ _ (show h.POWER2 < (c.reg_cache.set h.POWER1 0).length by
        rw [List.length_set]; omega),
      getD_set _ _ _ _ (show h.POWER3 < ((c.reg_cache.set h.POWER1 0).set h.POWER2 0).length by
        rw [List.length_set, List.length_set]; omega)]
    split_ifs <;> rfl

/-- C17: `wm8956_set_bias_level` ignores the level: for OFF, as for every level, it writes
0xfffe to `POWER1` and 0xffff to `POWER2` and `POWER3`, so from the reset defaults the
three cached power registers are 0xfffe, 0xffff, 0xffff afterwards, not 0. -/
theorem wm8956_set_bias_level_off_not_zero (h : wm8956_h) (hw : hw_write_t)
    (c : snd_soc_codec) :
    (wm8956_set_bias_level h hw c .SND_SOC_BIAS_OFF).2.sent = c.sent ++
        [wire_data h.POWER1 0xfffe, wire_data h.POWER2 0xffff, wire_data h.POWER3 0xffff] ∧
    (wm8956_set_bias_level wm8956_map hw wm8956_codec0 .SND_SOC_BIAS_OFF).2.reg_cache.getD
        wm8956_map.POWER1 0 = 0xfffe ∧
    (wm8956_set_bias_level wm8956_map hw wm8956_codec0 .SND_SOC_BIAS_OFF).2.reg_cache.getD
        wm8956_map.POWER2 0 = 0xffff ∧
    (wm8956_set_bias_level wm8956_map hw wm8956_codec0 .SND_SOC_BIAS_OFF).2.reg_cache.getD
        wm8956_map.POWER3 0 = 0xffff := by
  refine ⟨wm8956_set_bias_level_sent h hw c _, ?_, ?_, ?_⟩
  · simp only [wm8956_set_bias_level]
    rw [wm8956_write_eq _ hw _ _ _ (by decide) (by decide) (by decide),
      wm8956_write_eq _ hw _ _ _ (by decide) (by decide) (by decide),
      wm8956_write_eq _ hw _ _ _ (by decide) (by decide) (by decide)]
    decide
  · simp only [wm8956_set_bias_level]
    rw [wm8956_write_eq _ hw _ _ _ (by decide) (by decide) (by decide),
      wm8956_write_eq _ hw _ _ _ (by decide) (by decide) (by decide),
      wm8956_write_eq _ hw _ _ _ (by decide) (by decide) (by decide)]
    decide
  · simp only [wm8956_set_bias_level]
    rw [wm8956_write_eq _ hw _ _ _ (by decide) (by decide) (by decide),
      wm8956_write_eq _ hw _ _ _ (by decide) (by decide) (by decide),
      wm8956_write_eq _ hw _ _ _ (by decide) (by decide) (by decide)]
    decide


/-! ## Resume -/

/-- The frames of the replay loop: one per index below `n`, in ascending order. -/
theorem resume_loop_eq (c : snd_soc_codec) (n : Nat) :
    (List.range n).foldl resume_step c
      = { c with sent := c.sent ++ replay_frames c n } := by
  unfold replay_frames
  induction n with
  | zero => simp
  | succ k ih =>
    rw [List.range_succ, List.foldl_append, ih]
    simp [resume_step, List.map_append]

theorem wm8956_write_suspend_level (h : wm8956_h) (hw : hw_write_t) (c : snd_soc_codec)
    (r v : Nat) : (wm8956_write h hw c r v).2.suspend_bias_level = c.suspend_bias_level := by
  rw [wm8956_write_snd]
  unfold wm8956_write_reg_cache
  split <;> rfl

theorem wm8956_set_bias_level_suspend_level (h : wm8956_h) (hw : hw_write_t)
    (c : snd_soc_codec) (x : snd_soc_bias_level) :
    (wm8956_set_bias_level h hw c x).2.suspend_bias_level = c.suspend_bias_level := by
  simp [wm8956_set_bias_level, wm8956_write_suspend_level]

/-- C18: in both drivers resume first hands the transport one frame per register index
`0, 1, ..., N-1` in ascending order, frame `i` being the wire encoding of
`(i, cache[i])`, whatever the transport reports and with the cache unchanged, and only
then applies `set_bias_level(STANDBY)` followed by `set_bias_level` of the level recorded
before suspend; it returns 0. -/
theorem resume_replays_cache (h0 : wm8950_h) (h6 : wm8956_h) (hw : hw_write_t)
    (c : snd_soc_codec) :
    ((wm8950_resume h0 hw c).1 = 0 ∧
     (wm8950_resume h0 hw c).2
        = (wm8950_set_bias_level h0 hw
            (wm8950_set_bias_level h0 hw
              { c with sent := c.sent ++
                  replay_frames c h0.CACHEREGNUM }
              .SND_SOC_BIAS_STANDBY).2
            c.suspend_bias_level).2 ∧
     (wm8950_resume h0 hw c).2.sent = c.sent ++ replay_frames c h0.CACHEREGNUM ++
        (match c.suspend_bias_level with
         | .SND_SOC_BIAS_ON =>
           [wire_data h0.POWER1 0x1ff, wire_data h0.POWER2 0x1ff, wire_data h0.POWER3 0x1ff]
         | .SND_SOC_BIAS_PREPARE => []
         | .SND_SOC_BIAS_STANDBY => []
         | .SND_SOC_BIAS_OFF =>
           [wire_data h0.POWER1 0x0, wire_data h0.POWER2 0x0, wire_data h0.POWER3 0x0]) ∧
     (wm8950_resume h0 hw c).2.bias_level = c.suspend_bias_level) ∧
    ((wm8956_resume h6 hw c).1 = 0 ∧
     (wm8956_resume h6 hw c).2
        = (wm8956_set_bias_level h6 hw
            (wm8956_set_bias_level h6 hw
              { c with sent := c.sent ++
                  replay_frames c h6.CACHEREGNUM }
              .SND_SOC_BIAS_STANDBY).2
            c.suspend_bias_level).2 ∧
     (wm8956_resume h6 hw c).2.sent = c.sent ++ replay_frames c h6.CACHEREGNUM ++
        [wire_data h6.POWER1 0xfffe, wire_data h6.POWER2 0xffff,
         wire_data h6.POWER3 0xffff] ++
        [wire_data h6.POWER1 0xfffe, wire_data h6.POWER2 0xffff,
         wire_data h6.POWER3 0xffff] ∧
     (wm8956_resume h6 hw c).2.bias_level = c.suspend_bias_level) ∧
    (∀ n i, i < n →
      (replay_frames c n).length = n ∧
      (replay_frames c n)[i]?
        = some (wire_data i (c.reg_cache.getD i 0)) ∧
      wire_data i (c.reg_cache.getD i 0)
        = (((i <<< 1) ||| ((c.reg_cache.getD i 0 >>> 8) &&& 1)) % 256,
            c.reg_cache.getD i 0 &&& 0xFF)) := by
  have e0 : (wm8950_resume h0 hw c).2
      = (wm8950_set_bias_level h0 hw
          (wm8950_set_bias_level h0 hw
            { c with sent := c.sent ++
                replay_frames c h0.CACHEREGNUM }
            .SND_SOC_BIAS_STANDBY).2
          c.suspend_bias_level).2 := by
    unfold wm8950_resume
    simp only [resume_loop_eq]
    rfl
  have e6 : (wm8956_resume h6 hw c).2
      = (wm8956_set_bias_level h6 hw
          (wm8956_set_bias_level h6 hw
            { c with sent := c.sent ++
                replay_frames c h6.CACHEREGNUM }
            .SND_SOC_BIAS_STANDBY).2
          c.suspend_bias_level).2 := by
    unfold wm8956_resume
    simp only [resume_loop_eq, wm8956_set_bias_level_suspend_level]
  refine ⟨⟨rfl, e0, ?_, ?_⟩, ⟨rfl, e6, ?_, ?_⟩, fun n i hi => ⟨by simp [replay_frames], ?_, ?_⟩⟩
  · rw [e0, wm8950_set_bias_level_sent, wm8950_set_bias_level_sent]
    simp
  · rw [e0]
    rfl
  · rw [e6, wm8956_set_bias_level_sent, wm8956_set_bias_level_sent]
  · rw [e6]
    rfl
  · simp [replay_frames, hi]
  · rw [wire_data_eq, shiftRight_and_one, and_ff_eq_mod,
      shiftLeft_one_or _ _ (Nat.mod_lt _ (by decide))]

/-- Witness of C18: the replay of the 57 reset defaults of the wm8950; frame 6 carries
the `CLOCK` default 0x140. -/
theorem resume_replays_cache_witness :
    (replay_frames wm8950_codec0 57).length = 57 ∧
    (replay_frames wm8950_codec0 57)[6]? = some (13, 64) :=
  have h := (resume_replays_cache wm8950_map wm8956_map hw_fail wm8950_codec0).2.2 57 6
    (by decide)
  ⟨h.1, h.2.1.trans (by decide)⟩

/-- C19: on the reset defaults, `wm8950_set_dai_pll(12000000, 11289600)` (table row
`pre = 0, n = 7, k = 0x86c220`) returns 0 and writes `PLLN` with 7, then `PLLK1` three
times, with `k >> 18 = 0x21`, with `((k >> 9) && 0x1ff) = 1` and with `(k && 0x1ff) = 1`,
then `POWER1` with 0x020. `PLLK1` ends as 1 and `PLLK2`, `PLLK3` keep their defaults 0x93
and 0xe9, where the masking by `&` gives 0x21, 0x161 and 0x20. -/
theorem wm8950_set_dai_pll_k_registers :
    (wm8950_set_dai_pll wm8950_map hw_ok wm8950_codec0 12000000 11289600).1 = 0 ∧
    (wm8950_set_dai_pll wm8950_map hw_ok wm8950_codec0 12000000 11289600).2.sent
      = [wire_data wm8950_map.PLLN 7, wire_data wm8950_map.PLLK1 0x21,
         wire_data wm8950_map.PLLK1 1, wire_data wm8950_map.PLLK1 1,
         wire_data wm8950_map.POWER1 0x020] ∧
    (wm8950_set_dai_pll wm8950_map hw_ok wm8950_codec0 12000000 11289600).2.reg_cache.getD
        wm8950_map.PLLK1 0 = 1 ∧
    (wm8950_set_dai_pll wm8950_map hw_ok wm8950_codec0 12000000 11289600).2.reg_cache.getD
        wm8950_map.PLLK2 0 = 0x93 ∧
    (wm8950_set_dai_pll wm8950_map hw_ok wm8950_codec0 12000000 11289600).2.reg_cache.getD
        wm8950_map.PLLK3 0 = 0xe9 ∧
    (0x86c220 >>> 18 = 0x21 ∧ (0x86c220 >>> 9) &&& 0x1ff = 0x161 ∧
      0x86c220 &&& 0x1ff = 0x20) ∧
    (wm8950_set_dai_pll wm8950_map hw_ok wm8950_codec0 12000000 11289600).2.reg_cache.getD
        wm8950_map.PLLN 0 = 7 ∧
    (wm8950_set_dai_pll wm8950_map hw_ok wm8950_codec0 12000000 11289600).2.reg_cache.getD
        wm8950_map.POWER1 0 = 0x020 := by
  refine ⟨by decide, by decide, by decide, by decide, by decide,
    ⟨by decide, by decide, by decide⟩, by decide, by decide⟩


/-! ## The interface register between `set_dai_fmt` and `hw_params` -/

theorem wm8950_fmt_format_lt (s : sound_h) (fmt iface : Nat)
    (hf : wm8950_fmt_format s fmt 0 = some iface) : iface < 2 ^ 5 := by
  unfold wm8950_fmt_format at hf
  split_ifs at hf <;> (cases hf; decide)

theorem wm8950_fmt_inv_lt (s : sound_h) (fmt iface iface2 : Nat) (hlt : iface < 2 ^ 5)
    (hi : wm8950_fmt_inv s fmt iface = some iface2) : iface2 < 2 ^ 9 := by
  have h9 : iface < 2 ^ 9 := Nat.lt_of_lt_of_le hlt (by decide)
  have hor : ∀ k, k < 2 ^ 9 → (iface ||| k) % 65536 < 2 ^ 9 := fun k hk =>
    Nat.lt_of_le_of_lt (Nat.mod_le _ _) (Nat.or_lt_two_pow h9 hk)
  unfold wm8950_fmt_inv at hi
  split_ifs at hi <;> cases hi
  · exact h9
  · exact hor _ (by decide)
  · exact hor _ (by decide)
  · exact hor _ (by decide)

theorem wm8950_fmt_master_lt (s : sound_h) (fmt clk0 clk : Nat) (h0 : clk0 < 65536)
    (hm : wm8950_fmt_master s fmt clk0 = some clk) : clk < 65536 := by
  unfold wm8950_fmt_master at hm
  split_ifs at hm <;> cases hm
  · exact Nat.mod_lt _ (by decide)
  · exact h0

/-- After a successful `wm8950_set_dai_fmt` the cached interface register is a 9-bit
value, the case in which `wm8950_pcm_hw_params` keeps every bit outside the word-length
field. -/
theorem wm8950_set_dai_fmt_iface_lt (h : wm8950_h) (s : sound_h) (hw : hw_write_t)
    (c : snd_soc_codec) (fmt : Nat) (hv : h.valid) (hl : c.reg_cache.length = h.CACHEREGNUM)
    (hok : (wm8950_set_dai_fmt h s hw c fmt).1 = 0) :
    (wm8950_set_dai_fmt h s hw c fmt).2.reg_cache.getD h.IFACE 0 < 2 ^ 9 := by
  have hI := hv.2.1 h.IFACE (by simp [wm8950_h.regs])
  have hC := hv.2.1 h.CLOCK (by simp [wm8950_h.regs])
  have hCI : h.CLOCK ≠ h.IFACE :=
    nodup_getElem_ne h.regs hv.2.2.1 4 3 (by simp [wm8950_h.regs])
      (by simp [wm8950_h.regs]) (by decide)
  have ne : (- EINVAL : Int) ≠ 0 := by decide
  unfold wm8950_set_dai_fmt at hok ⊢
  simp only [] at hok ⊢
  cases hm : wm8950_fmt_master s fmt
      ((wm8950_read_reg_cache h c h.CLOCK &&& 0x1fe) % 65536) with
  | none =>
    rw [hm] at hok
    exact absurd hok ne
  | some clk =>
    have hclk := wm8950_fmt_master_lt s fmt _ clk (Nat.mod_lt _ (by decide)) hm
    cases hf : wm8950_fmt_format s fmt 0 with
    | none =>
      rw [hm, hf] at hok
      exact absurd hok ne
    | some iface =>
      have hif := wm8950_fmt_format_lt s fmt iface hf
      cases hi : wm8950_fmt_inv s fmt iface with
      | none =>
        simp only [hm, hf, hi] at hok
        exact absurd hok ne
      | some iface2 =>
        have hi2 := wm8950_fmt_inv_lt s fmt iface iface2 hif hi
        have hi16 : iface2 < 65536 := Nat.lt_of_lt_of_le hi2 (by decide)
        simp only [hm, hf, hi]
        rw [wm8950_write_eq h hw _ h.CLOCK clk hv.1 hC.1 hclk,
          wm8950_write_eq h hw c h.IFACE iface2 hv.1 hI.1 hi16]
        show ((c.reg_cache.set h.IFACE iface2).set h.CLOCK clk).getD h.IFACE 0 < 2 ^ 9
        rw [getD_set _ _ _ _ (by rw [List.length_set]; omega), if_neg (Ne.symm hCI),
          getD_set _ _ _ _ (by omega), if_pos rfl]
        exact hi2


end Wm89xx
